import Mathlib

/-!
Shallow embedding of the veilpay shielded-payment programs (the on-chain
Groth16 verifier program and the veilpay pool program) together with proofs
about the embedded operations.

Machine integers are modelled as Nat with explicit bounds or explicit
reductions where the source wraps or saturates.  Byte strings are List Nat
(one Nat per byte).  Fallible code returns Except.  Host-supplied
primitives (the alt-bn128 curve operations) are opaque byte-in/byte-out
functions collected in an environment record.
-/

set_option maxRecDepth 100000
set_option maxHeartbeats 2000000

/-- Big-endian interpretation of a byte list, as in u64::from_be_bytes and
u32::from_be_bytes applied to the low-order slice of a 32-byte word. -/
def beBytesToNat (l : List Nat) : Nat :=
  l.foldl (fun acc b => acc * 256 + b) 0

/-- Fuel-indexed worker for chunks32.  One fuel unit is spent per produced
chunk and the fuel is initialized with the list length, which bounds the
chunk count, so the fuel-exhausted branch is never taken on the intended
calls; the fuel makes the recursion structural so that concrete instances
reduce in the kernel. -/
def chunks32Go : Nat → List Nat → List (List Nat)
  | _, [] => []
  | 0, l => [l]
  | fuel + 1, x :: xs => ((x :: xs).take 32) :: chunks32Go fuel ((x :: xs).drop 32)

/-- Model of the Rust iterator bytes.chunks(32): splits a byte string into
consecutive 32-byte chunks, with a final shorter chunk when the length is
not a multiple of 32. -/
def chunks32 (l : List Nat) : List (List Nat) :=
  chunks32Go l.length l

namespace Verifier

/-- Error outcomes of the verifier program.  The first eight constructors
are the variants of the source error enum; Panic models the Rust runtime
abort on an out-of-bounds slice index (gamma_abc[i + 1] in compute_vk_x),
which like an error aborts the whole call. -/
inductive VerifierError where
  | InvalidProof
  | InvalidLength
  | InvalidVerifierKey
  | InvalidInputCount
  | TooManyInputs
  | PairingFailed
  | AdditionFailed
  | MultiplicationFailed
  | Panic
  deriving DecidableEq

/-- Host-supplied alt-bn128 primitives, taken as opaque byte-in/byte-out
functions: G1 addition on a 128-byte input, G1 scalar multiplication on a
96-byte input, optimal-ate pairing on a multiple-of-384-byte input.  An
error models the primitive reporting a malformed input. -/
structure CurveEnv where
  g1AddP : List Nat → Except Unit (List Nat)
  g1MulP : List Nat → Except Unit (List Nat)
  pairingP : List Nat → Except Unit (List Nat)

def to_fixed_32 (bytes : List Nat) : Except VerifierError (List Nat) :=
  if bytes.length = 32 then .ok bytes else .error .InvalidLength

def to_fixed_64 (bytes : List Nat) : Except VerifierError (List Nat) :=
  if bytes.length = 64 then .ok bytes else .error .InvalidLength

def to_fixed_128 (bytes : List Nat) : Except VerifierError (List Nat) :=
  if bytes.length = 128 then .ok bytes else .error .InvalidLength

/-- Wrapper around the G1 addition primitive: the two points are
concatenated into one 128-byte input; the output must be a 64-byte point.
The source checks the output length once with AdditionFailed and then runs
to_fixed_64, whose length error cannot fire after that check. -/
def g1_add (env : CurveEnv) (a b : List Nat) : Except VerifierError (List Nat) :=
  match env.g1AddP (a ++ b) with
  | .error _ => .error .AdditionFailed
  | .ok out => if out.length = 64 then .ok out else .error .AdditionFailed

/-- Wrapper around the G1 scalar multiplication primitive (96-byte input:
point then scalar). -/
def g1_mul (env : CurveEnv) (point scalar : List Nat) : Except VerifierError (List Nat) :=
  match env.g1MulP (point ++ scalar) with
  | .error _ => .error .MultiplicationFailed
  | .ok out => if out.length = 64 then .ok out else .error .MultiplicationFailed

/-- The base-field prime of the curve as a 32-byte big-endian constant. -/
def field_modulus : List Nat :=
  [48, 100, 78, 114, 225, 49, 160, 41, 184, 80, 69, 182, 129, 129, 88, 93, 151, 129,
   106, 145, 104, 113, 202, 141, 60, 32, 140, 22, 216, 124, 253, 71]

/-- Byte-wise borrowing subtraction, least-significant byte first; mirrors
the source loop running from index 31 down to 0.  The pairs hold
(modulus byte, value byte). -/
def subBytesBorrow : List (Nat × Nat) → Nat → List Nat
  | [], _ => []
  | ab :: rest, borrow =>
    if ab.2 + borrow ≤ ab.1 then (ab.1 - (ab.2 + borrow)) :: subBytesBorrow rest 0
    else (ab.1 + 256 - (ab.2 + borrow)) :: subBytesBorrow rest 1

/-- Big-endian 256-bit subtraction modulus - value with wraparound, as in
the source sub_mod_be. -/
def sub_mod_be (modulus value : List Nat) : List Nat :=
  (subBytesBorrow (modulus.reverse.zip value.reverse) 0).reverse

/-- Negation of a 64-byte G1 point: the y coordinate (bytes 32..64) is
replaced by p - y unless it is zero, which negates to itself. -/
def negate_g1 (point : List Nat) : List Nat :=
  let y := (point.drop 32).take 32
  if y.all (fun b => b == 0) then point
  else point.take 32 ++ sub_mod_be field_modulus y

/-- Success test on the pairing primitive output: exactly 32 bytes, the
first 31 all zero and the last equal to 1. -/
def pairing_is_one (output : List Nat) : Bool :=
  output.length == 32 && (output.take 31).all (fun b => b == 0) && output.getD 31 0 == 1

/-- Proof layout check and decomposition: a 256-byte proof splits into
A (64 bytes), B (128 bytes), C (64 bytes) at fixed offsets.  The
to_fixed length checks on the three slices hold by construction. -/
def parse_proof (proof : List Nat) :
    Except VerifierError (List Nat × List Nat × List Nat) :=
  if proof.length = 256 then
    .ok (proof.take 64, (proof.drop 64).take 128, (proof.drop 192).take 64)
  else .error .InvalidProof

/-- Loop body of compute_vk_x: for each 32-byte input chunk (index i),
multiply gamma_abc[i + 1] by the chunk taken as a scalar and add into the
accumulator.  The gamma_abc access is modelled with an explicit bounds
check whose failure is the Panic outcome. -/
def vk_x_loop (env : CurveEnv) (gamma_abc : List (List Nat)) :
    Nat → List Nat → List (List Nat) → Except VerifierError (List Nat)
  | _, acc, [] => .ok acc
  | i, acc, chunk :: rest =>
    match to_fixed_32 chunk with
    | .error e => .error e
    | .ok scalar =>
      match gamma_abc.get? (i + 1) with
      | none => .error .Panic
      | some point =>
        match g1_mul env point scalar with
        | .error e => .error e
        | .ok term =>
          match g1_add env acc term with
          | .error e => .error e
          | .ok acc2 => vk_x_loop env gamma_abc (i + 1) acc2 rest

/-- Public-input linear combination vk_x = gamma_abc[0] plus the sum of
gamma_abc[i + 1] scaled by the i-th 32-byte public input chunk. -/
def compute_vk_x (env : CurveEnv) (gamma_abc : List (List Nat))
    (public_inputs : List Nat) : Except VerifierError (List Nat) :=
  if gamma_abc.isEmpty then .error .InvalidVerifierKey
  else vk_x_loop env gamma_abc 0 (gamma_abc.headD []) (chunks32 public_inputs)

/-- The verifying key account.  Identity and bump wiring fields are
omitted; they do not enter the verification algorithm. -/
structure VerifierKey where
  alpha_g1 : List Nat
  beta_g2 : List Nat
  gamma_g2 : List Nat
  delta_g2 : List Nat
  public_inputs_len : Nat
  gamma_abc : List (List Nat)
  mock : Bool
  deriving DecidableEq

/-- The single pairing-check input: four (G1, G2) pairs concatenated in the
order (A, B), (-alpha, beta), (-vk_x, gamma), (-C, delta). -/
def pairing_input (key : VerifierKey) (a b vkx c : List Nat) : List Nat :=
  a ++ b ++ negate_g1 key.alpha_g1 ++ key.beta_g2 ++
  negate_g1 vkx ++ key.gamma_g2 ++ negate_g1 c ++ key.delta_g2

/-- The verify_groth16 handler, instrumented with a trace of the inputs on
which the pairing primitive is invoked; the source has exactly one pairing
call site, reached only after the length check, the mock bypass, proof
parsing and the vk_x computation. -/
def verify_groth16_traced (env : CurveEnv) (key : VerifierKey)
    (proof public_inputs : List Nat) :
    Except VerifierError Unit × List (List Nat) :=
  if public_inputs.length = key.public_inputs_len * 32 then
    if key.mock then (.ok (), [])
    else
      match parse_proof proof with
      | .error e => (.error e, [])
      | .ok (a, b, c) =>
        match compute_vk_x env key.gamma_abc public_inputs with
        | .error e => (.error e, [])
        | .ok vkx =>
          match env.pairingP (pairing_input key a b vkx c) with
          | .error _ => (.error .PairingFailed, [pairing_input key a b vkx c])
          | .ok result =>
            ((if pairing_is_one result then .ok () else .error .InvalidProof),
             [pairing_input key a b vkx c])
  else (.error .InvalidInputCount, [])

/-- The verify_groth16 handler proper: the result component of the traced
version. -/
def verify_groth16 (env : CurveEnv) (key : VerifierKey)
    (proof public_inputs : List Nat) : Except VerifierError Unit :=
  (verify_groth16_traced env key proof public_inputs).1

end Verifier

namespace Veilpay

def MAX_INPUTS : Nat := 4
def MAX_OUTPUTS : Nat := 2
def PUBLIC_INPUTS_LEN : Nat := 13
def MAX_ROOT_HISTORY : Nat := 32
def NULLIFIER_BITS : Nat := 8192
def NULLIFIER_BYTES : Nat := NULLIFIER_BITS / 8

/-- The distinguished empty-tree root installed by the mint-state and
identity-registry setup handlers. -/
def ZERO_ROOT : List Nat :=
  [0x21, 0x34, 0xE7, 0x6A, 0xC5, 0xD2, 0x1A, 0xAB,
   0x18, 0x6C, 0x2B, 0xE1, 0xDD, 0x8F, 0x84, 0xEE,
   0x88, 0x0A, 0x1E, 0x46, 0xEA, 0xF7, 0x12, 0xF9,
   0xD3, 0x71, 0xB6, 0xDF, 0x22, 0x19, 0x1F, 0x3E]

/-- The error enum of the veilpay program. -/
inductive VeilpayError where
  | Unauthorized
  | AllowlistTooLarge
  | CircuitListTooLarge
  | ProtocolPaused
  | RelayerFeeTooHigh
  | MathOverflow
  | NullifierAlreadyUsed
  | NullifierChunkMismatch
  | MintNotAllowed
  | InvalidVaultAuthority
  | UnknownRoot
  | IdentityRootMismatch
  | InvalidByteLength
  | InvalidProof
  | MissingRelayerFeeAccount
  | InvalidRelayerFeeAccount
  | RelayerFeeExceedsAmount
  | InvalidPublicInputs
  | CircuitNotAllowed
  | AmountMismatch
  | FeeMismatch
  | InvalidOutputFlags
  | MissingNullifierAccount
  deriving DecidableEq

/-- u64 saturating addition. -/
def satAdd64 (x y : Nat) : Nat := min (x + y) 18446744073709551615

/-- u32 saturating increment. -/
def satAdd32 (x : Nat) : Nat := min (x + 1) 4294967295

/-- u64 checked addition: errors with MathOverflow past the u64 maximum. -/
def checkedAdd64 (x y : Nat) : Except VeilpayError Nat :=
  if x + y ≤ 18446744073709551615 then .ok (x + y) else .error .MathOverflow

def to_fixed_32 (bytes : List Nat) : Except VeilpayError (List Nat) :=
  if bytes.length = 32 then .ok bytes else .error .InvalidByteLength

def to_fixed_128 (bytes : List Nat) : Except VeilpayError (List Nat) :=
  if bytes.length = 128 then .ok bytes else .error .InvalidByteLength

/-- Per-asset, per-chunk spent-nullifier ledger entry.  The bitset is the
fixed 1024-byte array; the mint and bump wiring fields are omitted. -/
structure NullifierSet where
  chunk_index : Nat
  bitset : List Nat
  count : Nat
  deriving DecidableEq

/-- Chunk and bit position of a 32-byte nullifier: the first four bytes
little-endian give the chunk index, bytes 4..6 little-endian reduced
modulo 8192 give the bit position. -/
def nullifier_position (nullifier : List Nat) : Nat × Nat :=
  (nullifier.getD 0 0 + 256 * nullifier.getD 1 0 +
     65536 * nullifier.getD 2 0 + 16777216 * nullifier.getD 3 0,
   (nullifier.getD 4 0 + 256 * nullifier.getD 5 0) % NULLIFIER_BITS)

/-- Mark one nullifier in one ledger entry: chunk-index match is required,
the addressed bit must not be set, and on success the bit is set and the
count incremented with u32 saturation. -/
def mark_nullifier (set : NullifierSet) (nullifier : List Nat) :
    Except VeilpayError NullifierSet :=
  let cp := nullifier_position nullifier
  if cp.1 = set.chunk_index then
    let byte_index := cp.2 / 8
    let bit_mask := 2 ^ (cp.2 % 8)
    if set.bitset.getD byte_index 0 &&& bit_mask = 0 then
      .ok { set with
            bitset := set.bitset.set byte_index (set.bitset.getD byte_index 0 ||| bit_mask),
            count := satAdd32 set.count }
    else .error .NullifierAlreadyUsed
  else .error .NullifierChunkMismatch

def is_zero_32 (value : List Nat) : Bool :=
  value.all (fun b => b == 0)

/-- A caller-supplied extra ledger account (one of the remaining accounts):
its writability flag and the nullifier-set value deserialized from it. -/
structure RemAccount where
  writable : Bool
  set : NullifierSet
  deriving DecidableEq

/-- Scan of the remaining accounts for the first writable entry whose
chunk index matches; non-writable entries are skipped. -/
def find_remaining_chunk : List RemAccount → Nat → Option NullifierSet
  | [], _ => none
  | r :: rest, chunk =>
    if r.writable then
      if r.set.chunk_index = chunk then some r.set else find_remaining_chunk rest chunk
    else find_remaining_chunk rest chunk

/-- Resolution and marking of a batch of nullifier slots.  Zero-valued
slots are skipped.  A nullifier whose chunk is the primary entry's chunk
is marked in the primary entry, which is threaded through the recursion
because the source holds it by mutable reference.  A nullifier addressing
any other chunk is resolved against the remaining accounts; the source
marks a value freshly deserialized from the matching account and drops it
without writing it back to the account, so here the updated copy is
discarded and the remaining list is left as supplied. -/
def mark_nullifiers (primary : NullifierSet) (remaining : List RemAccount) :
    List (List Nat) → Except VeilpayError NullifierSet
  | [] => .ok primary
  | n :: rest =>
    if is_zero_32 n then mark_nullifiers primary remaining rest
    else if (nullifier_position n).1 = primary.chunk_index then
      match mark_nullifier primary n with
      | .error e => .error e
      | .ok primary2 => mark_nullifiers primary2 remaining rest
    else
      match find_remaining_chunk remaining (nullifier_position n).1 with
      | none => .error .MissingNullifierAccount
      | some set =>
        match mark_nullifier set n with
        | .error e => .error e
        | .ok _ => mark_nullifiers primary remaining rest

/-- Per-asset shielded state: current root, ring buffer of recent roots,
write cursor, commitment counter.  Mint, circuit id, version and bump
wiring fields are omitted. -/
structure ShieldedState where
  merkle_root : List Nat
  root_history : List (List Nat)
  root_history_index : Nat
  commitment_count : Nat
  deriving DecidableEq

/-- The shielded state as created by the mint-state setup handler. -/
def freshShieldedState : ShieldedState :=
  { merkle_root := ZERO_ROOT, root_history := [], root_history_index := 0,
    commitment_count := 0 }

/-- Root-history append: push while below capacity, then overwrite at the
cursor modulo capacity and advance the cursor with u32 wraparound; the
current root is stored redundantly in merkle_root. -/
def append_root (state : ShieldedState) (new_root : List Nat) : ShieldedState :=
  if state.root_history.length < MAX_ROOT_HISTORY then
    { state with root_history := state.root_history ++ [new_root],
                 merkle_root := new_root }
  else
    { state with
      root_history := state.root_history.set
        (state.root_history_index % MAX_ROOT_HISTORY) new_root,
      root_history_index := (state.root_history_index + 1) % 4294967296,
      merkle_root := new_root }

/-- Root acceptance test: the candidate equals the current root or appears
anywhere in the history. -/
def root_known (state : ShieldedState) (root : List Nat) : Bool :=
  state.merkle_root == root || state.root_history.any (fun r => r == root)

/-- Test-harness helper: fold append_root over a list of roots. -/
def append_many (s : ShieldedState) (roots : List (List Nat)) : ShieldedState :=
  roots.foldl append_root s

/-- Relayer fee split: zero rate returns the amount untouched with zero
fee; otherwise the fee is amount * fee_bps / 10000 computed in a 128-bit
intermediate (checked multiplication, then a checked narrowing to u64),
and the fee must be strictly below the amount. -/
def split_relayer_fee (amount fee_bps : Nat) : Except VeilpayError (Nat × Nat) :=
  if fee_bps = 0 then .ok (amount, 0)
  else if amount * fee_bps ≥ 2 ^ 128 then .error .MathOverflow
  else
    let fee := amount * fee_bps / 10000
    if fee ≥ 2 ^ 64 then .error .MathOverflow
    else if fee < amount then .ok (amount - fee, fee)
    else .error .RelayerFeeExceedsAmount

/-- Decoded view of the 13-slot public-input array. -/
structure ParsedPublicInputs where
  root : List Nat
  identity_root : List Nat
  nullifiers : List (List Nat)
  output_commitments : List (List Nat)
  output_enabled : List Nat
  amount_out : Nat
  fee_amount : Nat
  circuit_id : Nat
  deriving DecidableEq

/-- Decode of a packed u64 slot: the 24 high-order bytes must be zero, the
value is the big-endian reading of the 8 low-order bytes. -/
def parse_u64 (bytes : List Nat) : Except VeilpayError Nat :=
  if (bytes.take 24).any (fun b => b != 0) then .error .InvalidPublicInputs
  else .ok (beBytesToNat (bytes.drop 24))

/-- Decode of a packed u32 slot: 28 zero high-order bytes, 4 value bytes. -/
def parse_u32 (bytes : List Nat) : Except VeilpayError Nat :=
  if (bytes.take 28).any (fun b => b != 0) then .error .InvalidPublicInputs
  else .ok (beBytesToNat (bytes.drop 28))

/-- Decode of a flag slot: a packed u64 that must additionally be at most
one. -/
def parse_u8 (bytes : List Nat) : Except VeilpayError Nat :=
  match parse_u64 bytes with
  | .error e => .error e
  | .ok v => if v ≤ 1 then .ok v else .error .InvalidPublicInputs

/-- Decode of the full 13-slot public-input array in the source's slot
order: root, identity root, four nullifiers, two output commitments, two
output-enabled flags, amount_out, fee_amount, circuit id. -/
def parse_public_inputs (bytes : List Nat) :
    Except VeilpayError ParsedPublicInputs :=
  if bytes.length = PUBLIC_INPUTS_LEN * 32 then
    let chunks := chunks32 bytes
    match parse_u8 (chunks.getD 8 []) with
    | .error e => .error e
    | .ok e0 =>
      match parse_u8 (chunks.getD 9 []) with
      | .error e => .error e
      | .ok e1 =>
        match parse_u64 (chunks.getD 10 []) with
        | .error e => .error e
        | .ok amount_out =>
          match parse_u64 (chunks.getD 11 []) with
          | .error e => .error e
          | .ok fee_amount =>
            match parse_u32 (chunks.getD 12 []) with
            | .error e => .error e
            | .ok circuit_id =>
              .ok { root := chunks.getD 0 [],
                    identity_root := chunks.getD 1 [],
                    nullifiers := [chunks.getD 2 [], chunks.getD 3 [],
                                   chunks.getD 4 [], chunks.getD 5 []],
                    output_commitments := [chunks.getD 6 [], chunks.getD 7 []],
                    output_enabled := [e0, e1],
                    amount_out := amount_out, fee_amount := fee_amount,
                    circuit_id := circuit_id }
  else .error .InvalidPublicInputs

end Veilpay

namespace Veilpay

/-- The pool configuration account.  Admin identity, registry reference,
version and bump wiring fields are omitted; mints and circuit ids are
abstracted to Nat. -/
structure Config where
  fee_bps : Nat
  relayer_fee_bps_max : Nat
  mint_allowlist : List Nat
  circuit_ids : List Nat
  paused : Bool
  deriving DecidableEq

/-- The per-asset vault account.  The three pubkey wiring fields and the
bump are omitted. -/
structure VaultPool where
  total_deposited : Nat
  total_withdrawn : Nat
  nonce : Nat
  deriving DecidableEq

/-- The ledger entries and account wiring one pool operation touches:
configuration, vault, shielded state, identity-registry root, the primary
nullifier entry, the caller-supplied remaining nullifier entries, the
vault-authority binding check outcome, the mint, and the mint recorded on
the optional relayer fee account. -/
structure PoolState where
  config : Config
  vault : VaultPool
  shielded : ShieldedState
  identity_root : List Nat
  nullifier_set : NullifierSet
  remaining : List RemAccount
  vault_authority_ok : Bool
  mint : Nat
  relayer_fee_mint : Option Nat
  deriving DecidableEq

structure DepositArgs where
  amount : Nat
  ciphertext : List Nat
  commitment : List Nat
  new_root : List Nat
  deriving DecidableEq

structure WithdrawArgs where
  amount : Nat
  proof : List Nat
  public_inputs : List Nat
  relayer_fee_bps : Nat
  new_root : List Nat
  deriving DecidableEq

structure InternalTransferArgs where
  proof : List Nat
  public_inputs : List Nat
  new_root : List Nat
  deriving DecidableEq

structure ExternalTransferArgs where
  amount : Nat
  proof : List Nat
  public_inputs : List Nat
  relayer_fee_bps : Nat
  new_root : List Nat
  deriving DecidableEq

/-- The deposit handler.  The token transfer from the user to the vault
moves balances held outside the modelled state and is treated as a
succeeding host call. -/
def depositOp (s : PoolState) (a : DepositArgs) : Except VeilpayError PoolState :=
  if s.config.paused then .error .ProtocolPaused
  else if s.mint ∈ s.config.mint_allowlist then
    if s.vault_authority_ok then
      match to_fixed_32 a.new_root with
      | .error e => .error e
      | .ok nr =>
        match to_fixed_32 a.commitment with
        | .error e => .error e
        | .ok _ =>
          match to_fixed_128 a.ciphertext with
          | .error e => .error e
          | .ok _ =>
            match checkedAdd64 s.vault.total_deposited a.amount with
            | .error e => .error e
            | .ok td =>
              .ok { s with
                vault := { s.vault with
                           total_deposited := td
                           nonce := satAdd64 s.vault.nonce 1 },
                shielded := append_root
                  { s.shielded with
                    commitment_count := satAdd64 s.shielded.commitment_count 1 } nr }
    else .error .InvalidVaultAuthority
  else .error .MintNotAllowed

/-- The withdraw handler.  The verifier call is a sub-invocation of the
verifier program abstracted as the Boolean parameter verifyCpi; a false
outcome is mapped to InvalidProof as in the source.  The two token
transfers (fee share, then net amount) move balances outside the modelled
state and are treated as succeeding host calls. -/
def withdrawOp (verifyCpi : List Nat → List Nat → Bool) (s : PoolState)
    (a : WithdrawArgs) : Except VeilpayError PoolState :=
  if s.config.paused then .error .ProtocolPaused
  else if a.relayer_fee_bps > s.config.relayer_fee_bps_max then .error .RelayerFeeTooHigh
  else if s.mint ∉ s.config.mint_allowlist then .error .MintNotAllowed
  else if s.vault_authority_ok = false then .error .InvalidVaultAuthority
  else if verifyCpi a.proof a.public_inputs = false then .error .InvalidProof
  else
    match parse_public_inputs a.public_inputs with
    | .error e => .error e
    | .ok parsed =>
      if parsed.amount_out ≠ a.amount then .error .AmountMismatch
      else if parsed.output_enabled.getD 0 0 ≠ 0 then .error .InvalidOutputFlags
      else if parsed.circuit_id ∉ s.config.circuit_ids then .error .CircuitNotAllowed
      else if parsed.identity_root ≠ s.identity_root then .error .IdentityRootMismatch
      else if root_known s.shielded parsed.root = false then .error .UnknownRoot
      else
        match split_relayer_fee a.amount a.relayer_fee_bps with
        | .error e => .error e
        | .ok nf =>
          if nf.2 ≠ parsed.fee_amount then .error .FeeMismatch
          else
            match mark_nullifiers s.nullifier_set s.remaining parsed.nullifiers with
            | .error e => .error e
            | .ok ns =>
              match (if nf.2 > 0 then
                       match s.relayer_fee_mint with
                       | none => Except.error VeilpayError.MissingRelayerFeeAccount
                       | some m =>
                         if m ≠ s.mint then .error .InvalidRelayerFeeAccount
                         else .ok ()
                     else Except.ok ()) with
              | .error e => .error e
              | .ok _ =>
                match checkedAdd64 s.vault.total_withdrawn a.amount with
                | .error e => .error e
                | .ok tw =>
                  let s2 := { s with
                    vault := { s.vault with
                               total_withdrawn := tw
                               nonce := satAdd64 s.vault.nonce 1 },
                    nullifier_set := ns }
                  if parsed.output_enabled.getD 1 0 = 1 then
                    match to_fixed_32 a.new_root with
                    | .error e => .error e
                    | .ok nr =>
                      .ok { s2 with
                        shielded := append_root
                          { s2.shielded with
                            commitment_count :=
                              satAdd64 s2.shielded.commitment_count 1 } nr }
                  else .ok s2

/-- The internal transfer handler: fully shielded, no vault movement; it
requires amount_out and fee_amount to be zero and the first output flag to
be set, and appends the new root after marking the nullifiers. -/
def internalTransferOp (verifyCpi : List Nat → List Nat → Bool) (s : PoolState)
    (a : InternalTransferArgs) : Except VeilpayError PoolState :=
  if s.config.paused then .error .ProtocolPaused
  else if s.mint ∉ s.config.mint_allowlist then .error .MintNotAllowed
  else if verifyCpi a.proof a.public_inputs = false then .error .InvalidProof
  else
    match parse_public_inputs a.public_inputs with
    | .error e => .error e
    | .ok parsed =>
      if parsed.amount_out ≠ 0 then .error .InvalidOutputFlags
      else if parsed.fee_amount ≠ 0 then .error .InvalidOutputFlags
      else if parsed.output_enabled.getD 0 0 ≠ 1 then .error .InvalidOutputFlags
      else if parsed.circuit_id ∉ s.config.circuit_ids then .error .CircuitNotAllowed
      else if parsed.identity_root ≠ s.identity_root then .error .IdentityRootMismatch
      else if root_known s.shielded parsed.root = false then .error .UnknownRoot
      else
        match mark_nullifiers s.nullifier_set s.remaining parsed.nullifiers with
        | .error e => .error e
        | .ok ns =>
          match to_fixed_32 a.new_root with
          | .error e => .error e
          | .ok nr =>
            let oc := parsed.output_enabled.getD 0 0 + parsed.output_enabled.getD 1 0
            if oc = 0 then .error .InvalidOutputFlags
            else
              .ok { s with
                nullifier_set := ns,
                shielded := append_root
                  { s.shielded with
                    commitment_count :=
                      satAdd64 s.shielded.commitment_count oc } nr }

/-- The external transfer handler: identical validation and vault effects
to withdraw, with the net amount sent to a destination account outside the
modelled state. -/
def externalTransferOp (verifyCpi : List Nat → List Nat → Bool) (s : PoolState)
    (a : ExternalTransferArgs) : Except VeilpayError PoolState :=
  if s.config.paused then .error .ProtocolPaused
  else if a.relayer_fee_bps > s.config.relayer_fee_bps_max then .error .RelayerFeeTooHigh
  else if s.mint ∉ s.config.mint_allowlist then .error .MintNotAllowed
  else if s.vault_authority_ok = false then .error .InvalidVaultAuthority
  else if verifyCpi a.proof a.public_inputs = false then .error .InvalidProof
  else
    match parse_public_inputs a.public_inputs with
    | .error e => .error e
    | .ok parsed =>
      if parsed.amount_out ≠ a.amount then .error .AmountMismatch
      else if parsed.output_enabled.getD 0 0 ≠ 0 then .error .InvalidOutputFlags
      else if parsed.circuit_id ∉ s.config.circuit_ids then .error .CircuitNotAllowed
      else if parsed.identity_root ≠ s.identity_root then .error .IdentityRootMismatch
      else if root_known s.shielded parsed.root = false then .error .UnknownRoot
      else
        match split_relayer_fee a.amount a.relayer_fee_bps with
        | .error e => .error e
        | .ok nf =>
          if nf.2 ≠ parsed.fee_amount then .error .FeeMismatch
          else
            match mark_nullifiers s.nullifier_set s.remaining parsed.nullifiers with
            | .error e => .error e
            | .ok ns =>
              match (if nf.2 > 0 then
                       match s.relayer_fee_mint with
                       | none => Except.error VeilpayError.MissingRelayerFeeAccount
                       | some m =>
                         if m ≠ s.mint then .error .InvalidRelayerFeeAccount
                         else .ok ()
                     else Except.ok ()) with
              | .error e => .error e
              | .ok _ =>
                match checkedAdd64 s.vault.total_withdrawn a.amount with
                | .error e => .error e
                | .ok tw =>
                  let s2 := { s with
                    vault := { s.vault with
                               total_withdrawn := tw
                               nonce := satAdd64 s.vault.nonce 1 },
                    nullifier_set := ns }
                  if parsed.output_enabled.getD 1 0 = 1 then
                    match to_fixed_32 a.new_root with
                    | .error e => .error e
                    | .ok nr =>
                      .ok { s2 with
                        shielded := append_root
                          { s2.shielded with
                            commitment_count :=
                              satAdd64 s2.shielded.commitment_count 1 } nr }
                  else .ok s2

/-- Host transactional semantics, specified at its interface by the spec:
a failing handler aborts the transaction and the host discards every
partial mutation, so the committed state of a failed operation is the
pre-state. -/
def committed (s : PoolState) (r : Except VeilpayError PoolState) : PoolState :=
  match r with
  | .ok s2 => s2
  | .error _ => s

end Veilpay

namespace Verifier

/-- Environment whose primitives all report failure; the mock bypass never
reaches them. -/
def sampleEnvFail : CurveEnv :=
  { g1AddP := fun _ => .error (), g1MulP := fun _ => .error (),
    pairingP := fun _ => .error () }

/-- Environment whose G1 primitives return the 64-byte zero point and whose
pairing primitive returns the encoded identity. -/
def sampleEnvOk : CurveEnv :=
  { g1AddP := fun _ => .ok (List.replicate 64 0),
    g1MulP := fun _ => .ok (List.replicate 64 0),
    pairingP := fun _ => .ok (List.replicate 31 0 ++ [1]) }

/-- A mock verifying key with no public inputs. -/
def sampleMockKey : VerifierKey :=
  { alpha_g1 := List.replicate 64 0, beta_g2 := List.replicate 128 0,
    gamma_g2 := List.replicate 128 0, delta_g2 := List.replicate 128 0,
    public_inputs_len := 0, gamma_abc := [List.replicate 64 0], mock := true }

/-- A non-mock verifying key with no public inputs. -/
def sampleRealKey : VerifierKey :=
  { alpha_g1 := List.replicate 64 0, beta_g2 := List.replicate 128 0,
    gamma_g2 := List.replicate 128 0, delta_g2 := List.replicate 128 0,
    public_inputs_len := 0, gamma_abc := [List.replicate 64 0], mock := false }

/-- An all-zero 256-byte proof blob. -/
def sampleProof256 : List Nat := List.replicate 256 0

end Verifier

namespace Veilpay

/-- The bit-set result of a successful mark: the addressed byte gains the
addressed bit and the count is incremented with saturation. -/
def marked (set : NullifierSet) (bit : Nat) : NullifierSet :=
  { set with
    bitset := set.bitset.set (bit / 8) (set.bitset.getD (bit / 8) 0 ||| 2 ^ (bit % 8)),
    count := satAdd32 set.count }

/-- The i-th 32-byte slot of a public-input byte string. -/
def slot32 (bytes : List Nat) (i : Nat) : List Nat :=
  (bytes.drop (32 * i)).take 32

/-- A packed-integer slot has a nonzero byte among its k high-order
bytes. -/
def bad_high_bytes (c : List Nat) (k : Nat) : Prop :=
  ∃ b ∈ c.take k, b ≠ 0

/-- A flag slot is rejected: nonzero high-order bytes or a decoded value
above one. -/
def bad_flag_slot (c : List Nat) : Prop :=
  bad_high_bytes c 24 ∨ 1 < beBytesToNat (c.drop 24)

/-- The public-input array has some integral slot (flags, amount_out,
fee_amount, circuit_id) that the decoder must reject. -/
def bad_public_inputs (bytes : List Nat) : Prop :=
  bad_flag_slot (slot32 bytes 8) ∨ bad_flag_slot (slot32 bytes 9) ∨
  bad_high_bytes (slot32 bytes 10) 24 ∨ bad_high_bytes (slot32 bytes 11) 24 ∨
  bad_high_bytes (slot32 bytes 12) 28

/-- Validation conditions of the withdraw handler, in source order; the
handler succeeds only if all of them hold on the pre-state. -/
def withdraw_checks (v : List Nat → List Nat → Bool) (s : PoolState)
    (a : WithdrawArgs) : Prop :=
  s.config.paused = false ∧
  a.relayer_fee_bps ≤ s.config.relayer_fee_bps_max ∧
  s.mint ∈ s.config.mint_allowlist ∧
  s.vault_authority_ok = true ∧
  v a.proof a.public_inputs = true ∧
  ∃ parsed, parse_public_inputs a.public_inputs = .ok parsed ∧
    parsed.amount_out = a.amount ∧
    parsed.output_enabled.getD 0 0 = 0 ∧
    parsed.circuit_id ∈ s.config.circuit_ids ∧
    parsed.identity_root = s.identity_root ∧
    root_known s.shielded parsed.root = true ∧
    (∃ net, split_relayer_fee a.amount a.relayer_fee_bps = .ok (net, parsed.fee_amount)) ∧
    (∃ ns, mark_nullifiers s.nullifier_set s.remaining parsed.nullifiers = .ok ns)

/-- Validation conditions of the internal transfer handler. -/
def internal_checks (v : List Nat → List Nat → Bool) (s : PoolState)
    (a : InternalTransferArgs) : Prop :=
  s.config.paused = false ∧
  s.mint ∈ s.config.mint_allowlist ∧
  v a.proof a.public_inputs = true ∧
  ∃ parsed, parse_public_inputs a.public_inputs = .ok parsed ∧
    parsed.amount_out = 0 ∧
    parsed.fee_amount = 0 ∧
    parsed.output_enabled.getD 0 0 = 1 ∧
    parsed.circuit_id ∈ s.config.circuit_ids ∧
    parsed.identity_root = s.identity_root ∧
    root_known s.shielded parsed.root = true ∧
    (∃ ns, mark_nullifiers s.nullifier_set s.remaining parsed.nullifiers = .ok ns)

/-- Validation conditions of the external transfer handler. -/
def external_checks (v : List Nat → List Nat → Bool) (s : PoolState)
    (a : ExternalTransferArgs) : Prop :=
  s.config.paused = false ∧
  a.relayer_fee_bps ≤ s.config.relayer_fee_bps_max ∧
  s.mint ∈ s.config.mint_allowlist ∧
  s.vault_authority_ok = true ∧
  v a.proof a.public_inputs = true ∧
  ∃ parsed, parse_public_inputs a.public_inputs = .ok parsed ∧
    parsed.amount_out = a.amount ∧
    parsed.output_enabled.getD 0 0 = 0 ∧
    parsed.circuit_id ∈ s.config.circuit_ids ∧
    parsed.identity_root = s.identity_root ∧
    root_known s.shielded parsed.root = true ∧
    (∃ net, split_relayer_fee a.amount a.relayer_fee_bps = .ok (net, parsed.fee_amount)) ∧
    (∃ ns, mark_nullifiers s.nullifier_set s.remaining parsed.nullifiers = .ok ns)

/-- A CPI stand-in that accepts every proof. -/
def verifyAlways : List Nat → List Nat → Bool := fun _ _ => true

/-- A 416-byte public-input array that is all zero except the first byte of
the first nullifier slot (slot 2, byte offset 64), which is 5: the single
nonzero nullifier addresses chunk 5, bit 0. -/
def pubInputs416 : List Nat := List.replicate 64 0 ++ 5 :: List.replicate 351 0

/-- An empty chunk-5 nullifier ledger entry. -/
def chunk5Set : NullifierSet :=
  { chunk_index := 5, bitset := List.replicate 1024 0, count := 0 }

def baseConfig : Config :=
  { fee_bps := 0, relayer_fee_bps_max := 0, mint_allowlist := [0],
    circuit_ids := [0], paused := false }

/-- A pool state whose primary nullifier entry covers chunk 0 and whose
remaining accounts hold one writable chunk-5 entry. -/
def baseState : PoolState :=
  { config := baseConfig,
    vault := { total_deposited := 0, total_withdrawn := 0, nonce := 0 },
    shielded := { merkle_root := List.replicate 32 0, root_history := [],
                  root_history_index := 0, commitment_count := 0 },
    identity_root := List.replicate 32 0,
    nullifier_set := { chunk_index := 0, bitset := List.replicate 1024 0, count := 0 },
    remaining := [{ writable := true, set := chunk5Set }],
    vault_authority_ok := true,
    mint := 0,
    relayer_fee_mint := none }

def wArgs : WithdrawArgs :=
  { amount := 0, proof := [], public_inputs := pubInputs416,
    relayer_fee_bps := 0, new_root := List.replicate 32 0 }

def eArgs : ExternalTransferArgs :=
  { amount := 0, proof := [], public_inputs := pubInputs416,
    relayer_fee_bps := 0, new_root := List.replicate 32 0 }

def dArgs : DepositArgs :=
  { amount := 0, ciphertext := List.replicate 128 0,
    commitment := List.replicate 32 0, new_root := List.replicate 32 0 }

/-- The state produced by one successful withdraw from baseState: only the
nonce advances; the chunk-5 mark is lost. -/
def baseStateAfterW : PoolState :=
  { baseState with vault := { total_deposited := 0, total_withdrawn := 0, nonce := 1 } }

/-- The state produced by replaying the identical withdraw. -/
def baseStateAfterW2 : PoolState :=
  { baseState with vault := { total_deposited := 0, total_withdrawn := 0, nonce := 2 } }

/-- baseState with the protocol paused. -/
def pausedState : PoolState :=
  { baseState with config := { baseConfig with paused := true } }

/-- baseState with the vault nonce already at the u64 maximum. -/
def maxNonceState : PoolState :=
  { baseState with
    vault := { total_deposited := 0, total_withdrawn := 0,
               nonce := 18446744073709551615 } }

/-- The state produced by a successful zero-amount deposit into
maxNonceState: the nonce saturates and stays at the u64 maximum. -/
def maxNonceAfter : PoolState :=
  { maxNonceState with
    shielded := { merkle_root := List.replicate 32 0,
                  root_history := [List.replicate 32 0],
                  root_history_index := 0, commitment_count := 1 } }

/-- A nullifier ledger entry whose count is already at the u32 maximum. -/
def maxCountSet : NullifierSet :=
  { chunk_index := 0, bitset := List.replicate 1024 0, count := 4294967295 }

/-- The all-zero 32-byte word. -/
def zeroWord32 : List Nat := List.replicate 32 0

/-- A chunk-7 nullifier entry with a small count. -/
def sampleSet7 : NullifierSet :=
  { chunk_index := 7, bitset := List.replicate 1024 0, count := 3 }

/-- A nullifier addressing chunk 7, bit (9 + 256 * 1) mod 8192 = 265. -/
def sampleNul7 : List Nat := 7 :: 0 :: 0 :: 0 :: 9 :: 1 :: List.replicate 26 0

/-- A 416-byte public-input array that is all zero except byte 5 of the
circuit-id slot (slot 12, byte offset 389), which is 1. -/
def badCircuitBytes : List Nat := List.replicate 389 0 ++ 1 :: List.replicate 26 0

end Veilpay

lemma chunks32Go_nil (fuel : Nat) : chunks32Go fuel [] = [] := by
  cases fuel <;> rfl

lemma chunks32Go_fuel_irrel : ∀ (f1 f2 : Nat) (l : List Nat),
    l.length ≤ f1 → l.length ≤ f2 → chunks32Go f1 l = chunks32Go f2 l := by
  intro f1
  induction f1 with
  | zero =>
    intro f2 l h1 _
    have : l = [] := by
      cases l with
      | nil => rfl
      | cons x xs => simp at h1
    subst this
    rw [chunks32Go_nil, chunks32Go_nil]
  | succ f1 ih =>
    intro f2 l h1 h2
    cases l with
    | nil => rw [chunks32Go_nil, chunks32Go_nil]
    | cons x xs =>
      cases f2 with
      | zero => simp at h2
      | succ g =>
        show ((x :: xs).take 32) :: chunks32Go f1 ((x :: xs).drop 32) =
             ((x :: xs).take 32) :: chunks32Go g ((x :: xs).drop 32)
        have hlen : ((x :: xs).drop 32).length = xs.length - 31 := by
          simp [List.length_drop]
        have ha : ((x :: xs).drop 32).length ≤ f1 := by
          simp only [List.length_cons] at h1; omega
        have hb : ((x :: xs).drop 32).length ≤ g := by
          simp only [List.length_cons] at h2; omega
        rw [ih g ((x :: xs).drop 32) ha hb]

lemma chunks32_nil : chunks32 [] = [] := rfl

lemma chunks32_cons (x : Nat) (xs : List Nat) :
    chunks32 (x :: xs) = ((x :: xs).take 32) :: chunks32 ((x :: xs).drop 32) := by
  show chunks32Go (x :: xs).length (x :: xs) = _
  rw [List.length_cons]
  show ((x :: xs).take 32) :: chunks32Go xs.length ((x :: xs).drop 32) = _
  rw [chunks32Go_fuel_irrel xs.length ((x :: xs).drop 32).length ((x :: xs).drop 32)
    (by simp [List.length_drop]) (le_refl _)]
  rfl

lemma chunks32_eq (k : Nat) : ∀ l : List Nat, l.length = k * 32 →
    chunks32 l = (List.range k).map (fun i => (l.drop (32 * i)).take 32) := by
  induction k with
  | zero =>
    intro l h
    have : l = [] := by
      cases l with
      | nil => rfl
      | cons x xs => simp at h
    subst this
    rfl
  | succ k ih =>
    intro l h
    obtain ⟨x, xs, rfl⟩ : ∃ x xs, l = x :: xs := by
      cases l with
      | nil => exfalso; simp [Nat.succ_mul] at h
      | cons x xs => exact ⟨x, xs, rfl⟩
    rw [chunks32_cons, ih ((x :: xs).drop 32)
      (by simp only [List.length_drop, List.length_cons] at *; omega)]
    rw [List.range_succ_eq_map]
    simp only [List.map_cons, List.map_map, Function.comp]
    congr 1
    apply List.map_congr_left
    intro i _
    simp only [Function.comp_apply]
    rw [List.drop_drop]
    congr 2
    omega

namespace Verifier

lemma g1_mul_error_shape (env : CurveEnv) (p s : List Nat) (e : VerifierError) :
    g1_mul env p s = .error e → e = .MultiplicationFailed := by
  unfold g1_mul
  cases h : env.g1MulP (p ++ s) with
  | error u => intro h2; exact (Except.error.injEq _ _).mp h2.symm
  | ok out =>
    by_cases h64 : out.length = 64
    · simp [h64]
    · simp only [h64, if_false]
      intro h2
      exact (Except.error.injEq _ _).mp h2.symm

lemma g1_add_error_shape (env : CurveEnv) (p q : List Nat) (e : VerifierError) :
    g1_add env p q = .error e → e = .AdditionFailed := by
  unfold g1_add
  cases h : env.g1AddP (p ++ q) with
  | error u => intro h2; exact (Except.error.injEq _ _).mp h2.symm
  | ok out =>
    by_cases h64 : out.length = 64
    · simp [h64]
    · simp only [h64, if_false]
      intro h2
      exact (Except.error.injEq _ _).mp h2.symm

lemma vk_x_loop_no_structural_error (env : CurveEnv) (gamma_abc : List (List Nat)) :
    ∀ (chunksL : List (List Nat)) (i : Nat) (acc : List Nat),
      (∀ c ∈ chunksL, c.length = 32) →
      i + chunksL.length < gamma_abc.length →
      vk_x_loop env gamma_abc i acc chunksL ≠ .error .Panic ∧
      vk_x_loop env gamma_abc i acc chunksL ≠ .error .InvalidVerifierKey ∧
      vk_x_loop env gamma_abc i acc chunksL ≠ .error .InvalidLength := by
  intro chunksL
  induction chunksL with
  | nil =>
    intro i acc _ _
    simp [vk_x_loop]
  | cons c rest ih =>
    intro i acc hlen hbound
    have hc : c.length = 32 := hlen c (by simp)
    have hfix : to_fixed_32 c = .ok c := by simp [to_fixed_32, hc]
    have hi1 : i + 1 < gamma_abc.length := by
      simp only [List.length_cons] at hbound; omega
    obtain ⟨point, hpoint⟩ : ∃ p, gamma_abc.get? (i + 1) = some p :=
      ⟨gamma_abc.get ⟨i + 1, hi1⟩, List.get?_eq_get hi1⟩
    show vk_x_loop env gamma_abc i acc (c :: rest) ≠ _ ∧ _ ∧ _
    rw [vk_x_loop, hfix, hpoint]
    cases hmul : g1_mul env point c with
    | error e =>
      have he := g1_mul_error_shape env point c e hmul
      subst he
      simp [hmul]
    | ok term =>
      cases hadd : g1_add env acc term with
      | error e =>
        have he := g1_add_error_shape env acc term e hadd
        subst he
        simp [hmul, hadd]
      | ok acc2 =>
        simp only [hmul, hadd]
        exact ih (i + 1) acc2 (fun d hd => hlen d (by simp [hd]))
          (by simp only [List.length_cons] at hbound; omega)

/-- C9: for a non-mock key satisfying the key-creation invariant
gamma_abc.length = public_inputs_len + 1 and a public-input byte string of
length public_inputs_len * 32, compute_vk_x indexes gamma_abc only in
bounds (the Panic outcome modelling an out-of-bounds index never occurs)
and its empty-key and length-error branches are unreachable. -/
theorem c9_compute_vk_x_in_bounds (env : CurveEnv) (k : Nat)
    (gamma_abc : List (List Nat)) (public_inputs : List Nat)
    (hkey : gamma_abc.length = k + 1) (hin : public_inputs.length = k * 32) :
    compute_vk_x env gamma_abc public_inputs ≠ .error .Panic ∧
    compute_vk_x env gamma_abc public_inputs ≠ .error .InvalidVerifierKey ∧
    compute_vk_x env gamma_abc public_inputs ≠ .error .InvalidLength := by
  have hne : gamma_abc.isEmpty = false := by
    cases gamma_abc with
    | nil => simp at hkey
    | cons g gs => rfl
  unfold compute_vk_x
  rw [hne]
  simp only [Bool.false_eq_true, if_false]
  apply vk_x_loop_no_structural_error
  · intro c hc
    rw [chunks32_eq k public_inputs hin] at hc
    obtain ⟨i, hi, rfl⟩ := List.mem_map.mp hc
    have hik : i < k := List.mem_range.mp hi
    simp only [List.length_take, List.length_drop, hin]
    omega
  · rw [chunks32_eq k public_inputs hin]
    simp only [List.length_map, List.length_range, Nat.zero_add, hkey]
    omega

/-- Witness for C9 at a concrete one-input key shape. -/
theorem c9_witness :
    compute_vk_x sampleEnvOk [List.replicate 64 0, List.replicate 64 0]
        (List.replicate 32 0) ≠ .error .Panic ∧
    compute_vk_x sampleEnvOk [List.replicate 64 0, List.replicate 64 0]
        (List.replicate 32 0) ≠ .error .InvalidVerifierKey ∧
    compute_vk_x sampleEnvOk [List.replicate 64 0, List.replicate 64 0]
        (List.replicate 32 0) ≠ .error .InvalidLength :=
  c9_compute_vk_x_in_bounds sampleEnvOk 1 [List.replicate 64 0, List.replicate 64 0]
    (List.replicate 32 0) (by decide) (by decide)

end Verifier

namespace Verifier

/-- Counterexample to C2 as stated: on a mock key the handler returns
success for a proof of length 0, which is not 256; no proof-length
validation happens on the mock path. -/
theorem c2_counterexample :
    verify_groth16 sampleEnvFail sampleMockKey [] [] = .ok () ∧
    ([] : List Nat).length ≠ 256 := by
  constructor
  · rfl
  · decide

/-- C2 (amended): with mock = true, verify_groth16 returns success exactly
when the public-input length equals public_inputs_len * 32; the proof
bytes, including their length, are never inspected on the mock path. -/
theorem c2_mock_bypass (env : CurveEnv) (key : VerifierKey)
    (proof public_inputs : List Nat) (hm : key.mock = true) :
    verify_groth16 env key proof public_inputs = .ok () ↔
      public_inputs.length = key.public_inputs_len * 32 := by
  unfold verify_groth16 verify_groth16_traced
  rw [hm]
  by_cases h : public_inputs.length = key.public_inputs_len * 32 <;> simp [h]

/-- Witness for C2: the mock key accepts a 7-byte proof when the
public-input length matches. -/
theorem c2_witness :
    verify_groth16 sampleEnvFail sampleMockKey (List.replicate 7 0) [] = .ok () :=
  (c2_mock_bypass sampleEnvFail sampleMockKey (List.replicate 7 0) [] rfl).mpr (by decide)

end Verifier

namespace Verifier

/-- C8: for a non-mock key, once the proof parses as (A, B, C) and the
linear combination vk_x is computed, the handler invokes the pairing
primitive exactly once (the trace is the one-element list holding the
assembled input), the input is the concatenation of the pairs (A, B),
(-alpha, beta), (-vk_x, gamma), (-C, delta) in that order, success holds
exactly when the primitive returns an output accepted by pairing_is_one
(31 zero bytes then 1), and a primitive failure yields PairingFailed. -/
theorem c8_pairing_assembly (env : CurveEnv) (key : VerifierKey)
    (proof public_inputs a b c vkx : List Nat)
    (hm : key.mock = false)
    (hl : public_inputs.length = key.public_inputs_len * 32)
    (hp : parse_proof proof = .ok (a, b, c))
    (hv : compute_vk_x env key.gamma_abc public_inputs = .ok vkx) :
    (verify_groth16_traced env key proof public_inputs).2 =
      [pairing_input key a b vkx c] ∧
    (verify_groth16 env key proof public_inputs = .ok () ↔
      ∃ r, env.pairingP (pairing_input key a b vkx c) = .ok r ∧
        pairing_is_one r = true) ∧
    (∀ u, env.pairingP (pairing_input key a b vkx c) = .error u →
      verify_groth16 env key proof public_inputs = .error .PairingFailed) := by
  unfold verify_groth16 verify_groth16_traced
  rw [if_pos hl, hm]
  simp only [Bool.false_eq_true, if_false, hp, hv]
  cases hpr : env.pairingP (pairing_input key a b vkx c) with
  | error u => simp [hpr]
  | ok r =>
    by_cases hone : pairing_is_one r = true
    · simp [hpr, hone]
    · simp [hpr, hone]

/-- Witness for C8 at a concrete zero key, zero proof and empty inputs,
with an environment whose pairing primitive returns the identity. -/
theorem c8_witness :
    (verify_groth16_traced sampleEnvOk sampleRealKey sampleProof256 []).2 =
      [pairing_input sampleRealKey (List.replicate 64 0) (List.replicate 128 0)
        (List.replicate 64 0) (List.replicate 64 0)] ∧
    verify_groth16 sampleEnvOk sampleRealKey sampleProof256 [] = .ok () := by
  have h := c8_pairing_assembly sampleEnvOk sampleRealKey sampleProof256 []
    (List.replicate 64 0) (List.replicate 128 0) (List.replicate 64 0)
    (List.replicate 64 0) rfl rfl rfl rfl
  exact ⟨h.1, h.2.1.mpr ⟨List.replicate 31 0 ++ [1], rfl, by decide⟩⟩

end Verifier

namespace Veilpay

lemma and_two_pow_eq_zero_iff (b i : Nat) :
    (b &&& 2 ^ i = 0) ↔ b.testBit i = false := by
  rw [Nat.and_two_pow]
  cases h : b.testBit i
  · simp
  · simp

lemma getD_set_same (l : List Nat) (i a d : Nat) (h : i < l.length) :
    (l.set i a).getD i d = a := by
  simp [List.getD_eq_getElem?_getD, List.getElem?_set_eq_of_lt, h]

lemma getD_set_other (l : List Nat) (i j a d : Nat) (h : i ≠ j) :
    (l.set i a).getD j d = l.getD j d := by
  simp only [List.getD_eq_getElem?_getD, List.getElem?_set_ne h]

lemma mark_nullifier_ok_iff (set : NullifierSet) (n : List Nat) :
    ((nullifier_position n).1 = set.chunk_index ∧
      Nat.testBit (set.bitset.getD ((nullifier_position n).2 / 8) 0)
        ((nullifier_position n).2 % 8) = false →
      mark_nullifier set n = .ok (marked set (nullifier_position n).2)) ∧
    ((nullifier_position n).1 ≠ set.chunk_index →
      mark_nullifier set n = .error .NullifierChunkMismatch) ∧
    ((nullifier_position n).1 = set.chunk_index →
      Nat.testBit (set.bitset.getD ((nullifier_position n).2 / 8) 0)
        ((nullifier_position n).2 % 8) = true →
      mark_nullifier set n = .error .NullifierAlreadyUsed) := by
  by_cases hchunk : (nullifier_position n).1 = set.chunk_index
  · by_cases hbitp :
      Nat.testBit (set.bitset.getD ((nullifier_position n).2 / 8) 0)
        ((nullifier_position n).2 % 8) = true
    · have hz : ¬ (set.bitset.getD ((nullifier_position n).2 / 8) 0 &&&
          2 ^ ((nullifier_position n).2 % 8) = 0) := by
        rw [and_two_pow_eq_zero_iff, hbitp]
        decide
      refine ⟨fun h => absurd h.2 (by rw [hbitp]; decide), fun h => absurd hchunk h,
        fun _ _ => ?_⟩
      simp only [mark_nullifier]
      rw [if_pos hchunk, if_neg hz]
    · have hbf : Nat.testBit (set.bitset.getD ((nullifier_position n).2 / 8) 0)
          ((nullifier_position n).2 % 8) = false := by
        simpa using hbitp
      have hz : set.bitset.getD ((nullifier_position n).2 / 8) 0 &&&
          2 ^ ((nullifier_position n).2 % 8) = 0 := by
        rw [and_two_pow_eq_zero_iff]
        exact hbf
      refine ⟨fun _ => ?_, fun h => absurd hchunk h,
        fun _ h => absurd h (by rw [hbf]; decide)⟩
      simp only [mark_nullifier, marked]
      rw [if_pos hchunk, if_pos hz]
  · refine ⟨fun h => absurd h.1 hchunk, fun _ => ?_, fun h => absurd h hchunk⟩
    simp only [mark_nullifier]
    rw [if_neg hchunk]

lemma nullifier_position_2_lt (n : List Nat) : (nullifier_position n).2 < 8192 := by
  simp only [nullifier_position, NULLIFIER_BITS]
  exact Nat.mod_lt _ (by decide)

lemma marked_testBit (set : NullifierSet) (bit j : Nat)
    (hbs : set.bitset.length = 1024) (hbit : bit < 8192) (_hj : j < 8192) :
    Nat.testBit ((marked set bit).bitset.getD (j / 8) 0) (j % 8) = true ↔
      (j = bit ∨ Nat.testBit (set.bitset.getD (j / 8) 0) (j % 8) = true) := by
  simp only [marked]
  by_cases hbyte : j / 8 = bit / 8
  · rw [hbyte, getD_set_same _ _ _ _ (by omega)]
    rw [Nat.testBit_or]
    by_cases hmod : j % 8 = bit % 8
    · have hjb : j = bit := by omega
      subst hjb
      simp [Nat.testBit_two_pow]
    · have hjb : j ≠ bit := by omega
      rw [Nat.testBit_two_pow]
      have hne : bit % 8 ≠ j % 8 := by omega
      simp [hne, hjb]
  · have hjb : j ≠ bit := by omega
    rw [getD_set_other _ _ _ _ _ (by omega : bit / 8 ≠ j / 8)]
    simp [hjb]

lemma mark_nullifier_twice (set set2 : NullifierSet) (n : List Nat)
    (hbs : set.bitset.length = 1024)
    (h : mark_nullifier set n = .ok set2) :
    mark_nullifier set2 n = .error .NullifierAlreadyUsed := by
  by_cases hchunk : (nullifier_position n).1 = set.chunk_index
  · by_cases hz : set.bitset.getD ((nullifier_position n).2 / 8) 0 &&&
        2 ^ ((nullifier_position n).2 % 8) = 0
    · have hok := (mark_nullifier_ok_iff set n).1
        ⟨hchunk, (and_two_pow_eq_zero_iff _ _).mp hz⟩
      rw [hok] at h
      have h2 : set2 = marked set (nullifier_position n).2 :=
        ((Except.ok.injEq _ _).mp h).symm
      subst h2
      apply (mark_nullifier_ok_iff (marked set (nullifier_position n).2) n).2.2
      · exact hchunk
      · exact (marked_testBit set (nullifier_position n).2 (nullifier_position n).2
          hbs (nullifier_position_2_lt n) (nullifier_position_2_lt n)).mpr
          (Or.inl rfl)
    · have hbt : Nat.testBit (set.bitset.getD ((nullifier_position n).2 / 8) 0)
          ((nullifier_position n).2 % 8) = true := by
        cases hx : Nat.testBit (set.bitset.getD ((nullifier_position n).2 / 8) 0)
          ((nullifier_position n).2 % 8)
        · exact absurd ((and_two_pow_eq_zero_iff _ _).mpr hx) hz
        · rfl
      rw [(mark_nullifier_ok_iff set n).2.2 hchunk hbt] at h
      exact Except.noConfusion h
  · rw [(mark_nullifier_ok_iff set n).2.1 hchunk] at h
    exact Except.noConfusion h

/-- C3 (amended): nullifier positioning takes the first four bytes
little-endian as the chunk index and bytes 4..6 little-endian modulo 8192
as the bit position; mark_nullifier fails with NullifierChunkMismatch on a
chunk mismatch and NullifierAlreadyUsed on a set bit, and otherwise sets
exactly the addressed bit and increments count with u32 saturating
addition (the count stays 4294967295 when already at that maximum), so a
successful mark followed by the same mark on the resulting entry yields
NullifierAlreadyUsed. -/
theorem c3_mark_nullifier_spec (set : NullifierSet) (n : List Nat)
    (hbs : set.bitset.length = 1024) :
    nullifier_position n =
      (n.getD 0 0 + 256 * n.getD 1 0 + 65536 * n.getD 2 0 + 16777216 * n.getD 3 0,
       (n.getD 4 0 + 256 * n.getD 5 0) % 8192) ∧
    ((nullifier_position n).1 ≠ set.chunk_index →
      mark_nullifier set n = .error .NullifierChunkMismatch) ∧
    ((nullifier_position n).1 = set.chunk_index →
      Nat.testBit (set.bitset.getD ((nullifier_position n).2 / 8) 0)
        ((nullifier_position n).2 % 8) = true →
      mark_nullifier set n = .error .NullifierAlreadyUsed) ∧
    ((nullifier_position n).1 = set.chunk_index →
      Nat.testBit (set.bitset.getD ((nullifier_position n).2 / 8) 0)
        ((nullifier_position n).2 % 8) = false →
      mark_nullifier set n = .ok (marked set (nullifier_position n).2) ∧
      (marked set (nullifier_position n).2).count = min (set.count + 1) 4294967295 ∧
      (∀ j, j < 8192 →
        (Nat.testBit ((marked set (nullifier_position n).2).bitset.getD (j / 8) 0)
            (j % 8) = true ↔
          (j = (nullifier_position n).2 ∨
            Nat.testBit (set.bitset.getD (j / 8) 0) (j % 8) = true)))) ∧
    (∀ set2, mark_nullifier set n = .ok set2 →
      mark_nullifier set2 n = .error .NullifierAlreadyUsed) := by
  refine ⟨rfl, (mark_nullifier_ok_iff set n).2.1, (mark_nullifier_ok_iff set n).2.2,
    ?_, fun set2 h => mark_nullifier_twice set set2 n hbs h⟩
  intro hchunk hbf
  refine ⟨(mark_nullifier_ok_iff set n).1 ⟨hchunk, hbf⟩, rfl, ?_⟩
  intro j hj
  exact marked_testBit set (nullifier_position n).2 j hbs
    (nullifier_position_2_lt n) hj

/-- Counterexample to C3 as stated: at a count already equal to the u32
maximum, a successful mark does not increment the count. -/
theorem c3_counterexample :
    mark_nullifier maxCountSet zeroWord32 =
      .ok { chunk_index := 0, bitset := (List.replicate 1024 0).set 0 1,
            count := 4294967295 } ∧
    (4294967295 : Nat) = maxCountSet.count ∧
    maxCountSet.count + 1 ≠ 4294967295 := by
  refine ⟨rfl, rfl, by decide⟩

/-- Witness for C3 at a concrete chunk-7 entry and nullifier. -/
theorem c3_witness :
    mark_nullifier sampleSet7 sampleNul7 = .ok (marked sampleSet7 265) ∧
    Nat.testBit ((marked sampleSet7 265).bitset.getD 33 0) 1 = true ∧
    mark_nullifier (marked sampleSet7 265) sampleNul7 =
      .error .NullifierAlreadyUsed := by
  have h := c3_mark_nullifier_spec sampleSet7 sampleNul7 (by decide)
  have hok := (h.2.2.2.1 (by decide) (by decide)).1
  refine ⟨hok, ?_, h.2.2.2.2 (marked sampleSet7 265) hok⟩
  exact ((h.2.2.2.1 (by decide) (by decide)).2.2 265 (by decide)).mpr (Or.inl rfl)

lemma root_known_iff (s : ShieldedState) (c : List Nat) :
    root_known s c = true ↔ (s.merkle_root = c ∨ c ∈ s.root_history) := by
  simp [root_known]

lemma append_many_push : ∀ (rs : List (List Nat)) (s : ShieldedState),
    s.root_history.length + rs.length ≤ 32 →
    append_many s rs =
      { s with root_history := s.root_history ++ rs,
               merkle_root := rs.foldl (fun _ a => a) s.merkle_root } := by
  intro rs
  induction rs with
  | nil =>
    intro s _
    simp [append_many]
  | cons a rs ih =>
    intro s hbound
    have hstep : append_many s (a :: rs) = append_many (append_root s a) rs := rfl
    have hpush : append_root s a =
        { s with root_history := s.root_history ++ [a], merkle_root := a } := by
      unfold append_root
      rw [if_pos ?hc]
      case hc =>
        simp only [MAX_ROOT_HISTORY]
        simp only [List.length_cons] at hbound
        omega
    have hb2 : (append_root s a).root_history.length + rs.length ≤ 32 := by
      rw [hpush]
      simp only [List.length_append, List.length_cons, List.length_nil]
      simp only [List.length_cons] at hbound
      omega
    rw [hstep, ih _ hb2, hpush]
    simp [List.append_assoc]

/-- C4: root_known accepts exactly the current root and the members of the
history; after appending 33 pairwise distinct roots to a fresh shielded
state, the first root is no longer known while the 2nd through 33rd
(including the current root) all are. -/
theorem c4_root_known_window (s : ShieldedState) (c : List Nat)
    (r : Nat → List Nat)
    (hinj : ∀ i j, i < 33 → j < 33 → r i = r j → i = j) :
    (root_known s c = true ↔ (s.merkle_root = c ∨ c ∈ s.root_history)) ∧
    root_known (append_many freshShieldedState ((List.range 33).map r)) (r 0) = false ∧
    (∀ i, 1 ≤ i → i ≤ 32 →
      root_known (append_many freshShieldedState ((List.range 33).map r)) (r i) = true) := by
  have hpush := append_many_push ((List.range 32).map r) freshShieldedState
    (by simp [freshShieldedState])
  have hsplit : (List.range 33).map r = (List.range 32).map r ++ [r 32] := by
    rw [List.range_succ, List.map_append]
    rfl
  have hfold : append_many freshShieldedState ((List.range 33).map r) =
      append_root (append_many freshShieldedState ((List.range 32).map r)) (r 32) := by
    rw [hsplit]
    unfold append_many
    rw [List.foldl_append, List.foldl_cons, List.foldl_nil]
  have hhist : (append_many freshShieldedState ((List.range 32).map r)).root_history =
      (List.range 32).map r := by
    rw [hpush]
    simp [freshShieldedState]
  have hidx : (append_many freshShieldedState ((List.range 32).map r)).root_history_index
      = 0 := by
    rw [hpush]
    rfl
  have hlen : (append_many freshShieldedState ((List.range 32).map r)).root_history.length
      = 32 := by
    rw [hhist]
    simp
  have hfinal : append_many freshShieldedState ((List.range 33).map r) =
      { append_many freshShieldedState ((List.range 32).map r) with
        root_history := ((List.range 32).map r).set 0 (r 32),
        root_history_index := 1,
        merkle_root := r 32 } := by
    rw [hfold]
    unfold append_root
    rw [if_neg (by rw [hlen]; simp [MAX_ROOT_HISTORY]), hidx, hhist]
    simp [MAX_ROOT_HISTORY]
  have hsetform : ((List.range 32).map r).set 0 (r 32) =
      r 32 :: (List.range' 1 31).map r := by
    rw [show List.range 32 = 0 :: List.range' 1 31 from by decide]
    rfl
  have hmem : ∀ d : List Nat,
      d ∈ (append_many freshShieldedState ((List.range 33).map r)).root_history ↔
        d ∈ r 32 :: (List.range' 1 31).map r := by
    intro d
    rw [hfinal]
    show d ∈ ((List.range 32).map r).set 0 (r 32) ↔ _
    rw [hsetform]
  have hroot : (append_many freshShieldedState ((List.range 33).map r)).merkle_root
      = r 32 := by
    rw [hfinal]
  refine ⟨root_known_iff s c, ?_, ?_⟩
  · cases hrk : root_known (append_many freshShieldedState ((List.range 33).map r))
        (r 0) with
    | false => rfl
    | true =>
      exfalso
      rcases (root_known_iff _ _).mp hrk with h | h
      · rw [hroot] at h
        exact absurd (hinj 32 0 (by omega) (by omega) h) (by omega)
      · rcases List.mem_cons.mp ((hmem (r 0)).mp h) with h2 | h2
        · exact absurd (hinj 0 32 (by omega) (by omega) h2) (by omega)
        · obtain ⟨k, hk, hrk0⟩ := List.mem_map.mp h2
          have hk2 := List.mem_range'_1.mp hk
          exact absurd (hinj k 0 (by omega) (by omega) hrk0) (by omega)
  · intro i h1 h32
    by_cases hi32 : i = 32
    · subst hi32
      exact (root_known_iff _ _).mpr (Or.inl hroot)
    · refine (root_known_iff _ _).mpr (Or.inr ?_)
      refine (hmem (r i)).mpr (List.mem_cons.mpr (Or.inr ?_))
      exact List.mem_map.mpr ⟨i, List.mem_range'_1.mpr (by omega), rfl⟩

/-- Witness for C4 with the 33 distinct singleton roots [0] .. [32]. -/
theorem c4_witness :
    root_known (append_many freshShieldedState
      ((List.range 33).map (fun i => [i]))) [0] = false ∧
    root_known (append_many freshShieldedState
      ((List.range 33).map (fun i => [i]))) [5] = true ∧
    root_known (append_many freshShieldedState
      ((List.range 33).map (fun i => [i]))) [32] = true := by
  have h := c4_root_known_window freshShieldedState [] (fun i => [i])
    (by intro i j _ _ hh; simpa using hh)
  exact ⟨h.2.1, h.2.2 5 (by decide) (by decide), h.2.2 32 (by decide) (by decide)⟩

lemma checkedAdd64_ok (x y z : Nat) (h : checkedAdd64 x y = .ok z) : z = x + y := by
  unfold checkedAdd64 at h
  split at h
  · exact ((Except.ok.injEq _ _).mp h).symm
  · exact Except.noConfusion h

lemma bool_eq_false_of_not_true {b : Bool} (h : ¬ b = true) : b = false := by
  cases b
  · rfl
  · exact absurd rfl h

lemma bool_eq_true_of_not_false {b : Bool} (h : ¬ b = false) : b = true := by
  cases b
  · exact absurd rfl h
  · rfl

lemma withdrawOp_ok_elim (v : List Nat → List Nat → Bool) (s : PoolState)
    (a : WithdrawArgs) (s1 : PoolState) (h : withdrawOp v s a = .ok s1) :
    withdraw_checks v s a ∧
    s1.vault.total_deposited = s.vault.total_deposited ∧
    s1.vault.total_withdrawn = s.vault.total_withdrawn + a.amount ∧
    s1.vault.nonce = satAdd64 s.vault.nonce 1 ∧
    s1.remaining = s.remaining ∧
    s1.identity_root = s.identity_root ∧
    s1.config = s.config := by
  unfold withdrawOp at h
  by_cases h1 : s.config.paused = true
  · rw [if_pos h1] at h; exact Except.noConfusion h
  rw [if_neg h1] at h
  by_cases h2 : a.relayer_fee_bps > s.config.relayer_fee_bps_max
  · rw [if_pos h2] at h; exact Except.noConfusion h
  rw [if_neg h2] at h
  by_cases h3 : s.mint ∉ s.config.mint_allowlist
  · rw [if_pos h3] at h; exact Except.noConfusion h
  rw [if_neg h3] at h
  by_cases h4 : s.vault_authority_ok = false
  · rw [if_pos h4] at h; exact Except.noConfusion h
  rw [if_neg h4] at h
  by_cases h5 : v a.proof a.public_inputs = false
  · rw [if_pos h5] at h; exact Except.noConfusion h
  rw [if_neg h5] at h
  cases hp : parse_public_inputs a.public_inputs with
  | error e => simp only [hp] at h; exact Except.noConfusion h
  | ok parsed =>
  simp only [hp] at h
  by_cases h6 : parsed.amount_out ≠ a.amount
  · rw [if_pos h6] at h; exact Except.noConfusion h
  rw [if_neg h6] at h
  by_cases h7 : parsed.output_enabled.getD 0 0 ≠ 0
  · rw [if_pos h7] at h; exact Except.noConfusion h
  rw [if_neg h7] at h
  by_cases h8 : parsed.circuit_id ∉ s.config.circuit_ids
  · rw [if_pos h8] at h; exact Except.noConfusion h
  rw [if_neg h8] at h
  by_cases h9 : parsed.identity_root ≠ s.identity_root
  · rw [if_pos h9] at h; exact Except.noConfusion h
  rw [if_neg h9] at h
  by_cases h10 : root_known s.shielded parsed.root = false
  · rw [if_pos h10] at h; exact Except.noConfusion h
  rw [if_neg h10] at h
  cases hsp : split_relayer_fee a.amount a.relayer_fee_bps with
  | error e => simp only [hsp] at h; exact Except.noConfusion h
  | ok nf =>
  simp only [hsp] at h
  by_cases h11 : nf.2 ≠ parsed.fee_amount
  · rw [if_pos h11] at h; exact Except.noConfusion h
  rw [if_neg h11] at h
  cases hmk : mark_nullifiers s.nullifier_set s.remaining parsed.nullifiers with
  | error e => simp only [hmk] at h; exact Except.noConfusion h
  | ok ns =>
  simp only [hmk] at h
  cases hra : (if nf.2 > 0 then
      match s.relayer_fee_mint with
      | none => Except.error VeilpayError.MissingRelayerFeeAccount
      | some m =>
        if m ≠ s.mint then .error .InvalidRelayerFeeAccount
        else .ok ()
    else Except.ok ()) with
  | error e => simp only [hra] at h; exact Except.noConfusion h
  | ok u =>
  simp only [hra] at h
  cases hca : checkedAdd64 s.vault.total_withdrawn a.amount with
  | error e => simp only [hca] at h; exact Except.noConfusion h
  | ok tw =>
  simp only [hca] at h
  have htw := checkedAdd64_ok _ _ _ hca
  have hchecks : withdraw_checks v s a := by
    refine ⟨bool_eq_false_of_not_true h1, by omega, not_not.mp h3,
      bool_eq_true_of_not_false h4, bool_eq_true_of_not_false h5,
      parsed, hp, not_not.mp h6, not_not.mp h7, not_not.mp h8, not_not.mp h9,
      bool_eq_true_of_not_false h10, ⟨nf.1, ?_⟩, ⟨ns, hmk⟩⟩
    rw [← not_not.mp h11]
    exact hsp
  by_cases h12 : parsed.output_enabled.getD 1 0 = 1
  · rw [if_pos h12] at h
    cases hnr : to_fixed_32 a.new_root with
    | error e => simp only [hnr] at h; exact Except.noConfusion h
    | ok nr =>
    simp only [hnr] at h
    have hx := ((Except.ok.injEq _ _).mp h).symm
    subst hx
    exact ⟨hchecks, rfl, htw.symm ▸ rfl, rfl, rfl, rfl, rfl⟩
  · rw [if_neg h12] at h
    have hx := ((Except.ok.injEq _ _).mp h).symm
    subst hx
    exact ⟨hchecks, rfl, htw.symm ▸ rfl, rfl, rfl, rfl, rfl⟩

lemma externalTransferOp_ok_elim (v : List Nat → List Nat → Bool) (s : PoolState)
    (a : ExternalTransferArgs) (s1 : PoolState)
    (h : externalTransferOp v s a = .ok s1) :
    external_checks v s a ∧
    s1.vault.total_deposited = s.vault.total_deposited ∧
    s1.vault.total_withdrawn = s.vault.total_withdrawn + a.amount ∧
    s1.vault.nonce = satAdd64 s.vault.nonce 1 ∧
    s1.remaining = s.remaining ∧
    s1.identity_root = s.identity_root ∧
    s1.config = s.config := by
  unfold externalTransferOp at h
  by_cases h1 : s.config.paused = true
  · rw [if_pos h1] at h; exact Except.noConfusion h
  rw [if_neg h1] at h
  by_cases h2 : a.relayer_fee_bps > s.config.relayer_fee_bps_max
  · rw [if_pos h2] at h; exact Except.noConfusion h
  rw [if_neg h2] at h
  by_cases h3 : s.mint ∉ s.config.mint_allowlist
  · rw [if_pos h3] at h; exact Except.noConfusion h
  rw [if_neg h3] at h
  by_cases h4 : s.vault_authority_ok = false
  · rw [if_pos h4] at h; exact Except.noConfusion h
  rw [if_neg h4] at h
  by_cases h5 : v a.proof a.public_inputs = false
  · rw [if_pos h5] at h; exact Except.noConfusion h
  rw [if_neg h5] at h
  cases hp : parse_public_inputs a.public_inputs with
  | error e => simp only [hp] at h; exact Except.noConfusion h
  | ok parsed =>
  simp only [hp] at h
  by_cases h6 : parsed.amount_out ≠ a.amount
  · rw [if_pos h6] at h; exact Except.noConfusion h
  rw [if_neg h6] at h
  by_cases h7 : parsed.output_enabled.getD 0 0 ≠ 0
  · rw [if_pos h7] at h; exact Except.noConfusion h
  rw [if_neg h7] at h
  by_cases h8 : parsed.circuit_id ∉ s.config.circuit_ids
  · rw [if_pos h8] at h; exact Except.noConfusion h
  rw [if_neg h8] at h
  by_cases h9 : parsed.identity_root ≠ s.identity_root
  · rw [if_pos h9] at h; exact Except.noConfusion h
  rw [if_neg h9] at h
  by_cases h10 : root_known s.shielded parsed.root = false
  · rw [if_pos h10] at h; exact Except.noConfusion h
  rw [if_neg h10] at h
  cases hsp : split_relayer_fee a.amount a.relayer_fee_bps with
  | error e => simp only [hsp] at h; exact Except.noConfusion h
  | ok nf =>
  simp only [hsp] at h
  by_cases h11 : nf.2 ≠ parsed.fee_amount
  · rw [if_pos h11] at h; exact Except.noConfusion h
  rw [if_neg h11] at h
  cases hmk : mark_nullifiers s.nullifier_set s.remaining parsed.nullifiers with
  | error e => simp only [hmk] at h; exact Except.noConfusion h
  | ok ns =>
  simp only [hmk] at h
  cases hra : (if nf.2 > 0 then
      match s.relayer_fee_mint with
      | none => Except.error VeilpayError.MissingRelayerFeeAccount
      | some m =>
        if m ≠ s.mint then .error .InvalidRelayerFeeAccount
        else .ok ()
    else Except.ok ()) with
  | error e => simp only [hra] at h; exact Except.noConfusion h
  | ok u =>
  simp only [hra] at h
  cases hca : checkedAdd64 s.vault.total_withdrawn a.amount with
  | error e => simp only [hca] at h; exact Except.noConfusion h
  | ok tw =>
  simp only [hca] at h
  have htw := checkedAdd64_ok _ _ _ hca
  have hchecks : external_checks v s a := by
    refine ⟨bool_eq_false_of_not_true h1, by omega, not_not.mp h3,
      bool_eq_true_of_not_false h4, bool_eq_true_of_not_false h5,
      parsed, hp, not_not.mp h6, not_not.mp h7, not_not.mp h8, not_not.mp h9,
      bool_eq_true_of_not_false h10, ⟨nf.1, ?_⟩, ⟨ns, hmk⟩⟩
    rw [← not_not.mp h11]
    exact hsp
  by_cases h12 : parsed.output_enabled.getD 1 0 = 1
  · rw [if_pos h12] at h
    cases hnr : to_fixed_32 a.new_root with
    | error e => simp only [hnr] at h; exact Except.noConfusion h
    | ok nr =>
    simp only [hnr] at h
    have hx := ((Except.ok.injEq _ _).mp h).symm
    subst hx
    exact ⟨hchecks, rfl, htw.symm ▸ rfl, rfl, rfl, rfl, rfl⟩
  · rw [if_neg h12] at h
    have hx := ((Except.ok.injEq _ _).mp h).symm
    subst hx
    exact ⟨hchecks, rfl, htw.symm ▸ rfl, rfl, rfl, rfl, rfl⟩

lemma internalTransferOp_ok_elim (v : List Nat → List Nat → Bool) (s : PoolState)
    (a : InternalTransferArgs) (s1 : PoolState)
    (h : internalTransferOp v s a = .ok s1) :
    internal_checks v s a ∧
    s1.vault = s.vault ∧
    s1.remaining = s.remaining ∧
    s1.identity_root = s.identity_root ∧
    s1.config = s.config := by
  unfold internalTransferOp at h
  by_cases h1 : s.config.paused = true
  · rw [if_pos h1] at h; exact Except.noConfusion h
  rw [if_neg h1] at h
  by_cases h3 : s.mint ∉ s.config.mint_allowlist
  · rw [if_pos h3] at h; exact Except.noConfusion h
  rw [if_neg h3] at h
  by_cases h5 : v a.proof a.public_inputs = false
  · rw [if_pos h5] at h; exact Except.noConfusion h
  rw [if_neg h5] at h
  cases hp : parse_public_inputs a.public_inputs with
  | error e => simp only [hp] at h; exact Except.noConfusion h
  | ok parsed =>
  simp only [hp] at h
  by_cases h6 : parsed.amount_out ≠ 0
  · rw [if_pos h6] at h; exact Except.noConfusion h
  rw [if_neg h6] at h
  by_cases h7 : parsed.fee_amount ≠ 0
  · rw [if_pos h7] at h; exact Except.noConfusion h
  rw [if_neg h7] at h
  by_cases h8 : parsed.output_enabled.getD 0 0 ≠ 1
  · rw [if_pos h8] at h; exact Except.noConfusion h
  rw [if_neg h8] at h
  by_cases h9 : parsed.circuit_id ∉ s.config.circuit_ids
  · rw [if_pos h9] at h; exact Except.noConfusion h
  rw [if_neg h9] at h
  by_cases h10 : parsed.identity_root ≠ s.identity_root
  · rw [if_pos h10] at h; exact Except.noConfusion h
  rw [if_neg h10] at h
  by_cases h11 : root_known s.shielded parsed.root = false
  · rw [if_pos h11] at h; exact Except.noConfusion h
  rw [if_neg h11] at h
  cases hmk : mark_nullifiers s.nullifier_set s.remaining parsed.nullifiers with
  | error e => simp only [hmk] at h; exact Except.noConfusion h
  | ok ns =>
  simp only [hmk] at h
  cases hnr : to_fixed_32 a.new_root with
  | error e => simp only [hnr] at h; exact Except.noConfusion h
  | ok nr =>
  simp only [hnr] at h
  by_cases h12 : parsed.output_enabled.getD 0 0 + parsed.output_enabled.getD 1 0 = 0
  · rw [if_pos h12] at h; exact Except.noConfusion h
  rw [if_neg h12] at h
  have hchecks : internal_checks v s a :=
    ⟨bool_eq_false_of_not_true h1, not_not.mp h3, bool_eq_true_of_not_false h5,
      parsed, hp, not_not.mp h6, not_not.mp h7, not_not.mp h8, not_not.mp h9,
      not_not.mp h10, bool_eq_true_of_not_false h11, ⟨ns, hmk⟩⟩
  have hx := ((Except.ok.injEq _ _).mp h).symm
  subst hx
  exact ⟨hchecks, rfl, rfl, rfl, rfl⟩

lemma depositOp_ok_elim (s : PoolState) (a : DepositArgs) (s1 : PoolState)
    (h : depositOp s a = .ok s1) :
    s.config.paused = false ∧
    s.mint ∈ s.config.mint_allowlist ∧
    s.vault_authority_ok = true ∧
    s1.vault.total_withdrawn = s.vault.total_withdrawn ∧
    s1.vault.total_deposited = s.vault.total_deposited + a.amount ∧
    s1.vault.nonce = satAdd64 s.vault.nonce 1 ∧
    s1.remaining = s.remaining ∧
    s1.nullifier_set = s.nullifier_set := by
  unfold depositOp at h
  by_cases h1 : s.config.paused = true
  · rw [if_pos h1] at h; exact Except.noConfusion h
  rw [if_neg h1] at h
  by_cases h2 : s.mint ∈ s.config.mint_allowlist
  · rw [if_pos h2] at h
    by_cases h3 : s.vault_authority_ok = true
    · rw [if_pos h3] at h
      cases hnr : to_fixed_32 a.new_root with
      | error e => simp only [hnr] at h; exact Except.noConfusion h
      | ok nr =>
      simp only [hnr] at h
      cases hcm : to_fixed_32 a.commitment with
      | error e => simp only [hcm] at h; exact Except.noConfusion h
      | ok cm =>
      simp only [hcm] at h
      cases hct : to_fixed_128 a.ciphertext with
      | error e => simp only [hct] at h; exact Except.noConfusion h
      | ok ct =>
      simp only [hct] at h
      cases hca : checkedAdd64 s.vault.total_deposited a.amount with
      | error e => simp only [hca] at h; exact Except.noConfusion h
      | ok td =>
      simp only [hca] at h
      have htd := checkedAdd64_ok _ _ _ hca
      have hx := ((Except.ok.injEq _ _).mp h).symm
      subst hx
      exact ⟨bool_eq_false_of_not_true h1, h2, h3, rfl, htd.symm ▸ rfl, rfl, rfl, rfl⟩
    · rw [if_neg h3] at h; exact Except.noConfusion h
  · rw [if_neg h2] at h; exact Except.noConfusion h

/-- Counterexample to C5 as stated: at amount 0 with rate 0, the zero-rate
early path succeeds although the computed fee 0 is not strictly below the
amount 0. -/
theorem c5_counterexample :
    split_relayer_fee 0 0 = .ok (0, 0) ∧ ¬ ((0 : Nat) < 0) :=
  ⟨rfl, by decide⟩

/-- C5 (amended): split_relayer_fee computes fee = amount * fee_bps / 10000
in a 128-bit intermediate and net = amount - fee; it succeeds exactly when
fee_bps = 0 (returning fee 0 and net = amount, without the fee < amount
check) or fee < amount, errors with MathOverflow when the fee does not fit
u64, and errors with RelayerFeeExceedsAmount otherwise; the two fee-charging
value-moving handlers additionally succeed only when the computed fee
equals the proof-asserted fee_amount. -/
theorem c5_split_relayer_fee_spec (amount fee_bps : Nat)
    (ha : amount < 2 ^ 64) (hb : fee_bps < 2 ^ 16) :
    split_relayer_fee amount 0 = .ok (amount, 0) ∧
    (fee_bps ≠ 0 →
      (amount * fee_bps / 10000 < amount →
        split_relayer_fee amount fee_bps =
          .ok (amount - amount * fee_bps / 10000, amount * fee_bps / 10000)) ∧
      (amount * fee_bps / 10000 ≥ 2 ^ 64 →
        split_relayer_fee amount fee_bps = .error .MathOverflow) ∧
      (amount * fee_bps / 10000 < 2 ^ 64 → ¬ amount * fee_bps / 10000 < amount →
        split_relayer_fee amount fee_bps = .error .RelayerFeeExceedsAmount)) ∧
    (∀ v s (aw : WithdrawArgs) s1, withdrawOp v s aw = .ok s1 →
      ∃ parsed net, parse_public_inputs aw.public_inputs = .ok parsed ∧
        split_relayer_fee aw.amount aw.relayer_fee_bps = .ok (net, parsed.fee_amount)) ∧
    (∀ v s (ae : ExternalTransferArgs) s1, externalTransferOp v s ae = .ok s1 →
      ∃ parsed net, parse_public_inputs ae.public_inputs = .ok parsed ∧
        split_relayer_fee ae.amount ae.relayer_fee_bps = .ok (net, parsed.fee_amount)) := by
  have hml : amount * fee_bps < 2 ^ 128 := by
    have h1 : amount * fee_bps < 2 ^ 64 * 2 ^ 16 := by
      calc amount * fee_bps ≤ amount * fee_bps := le_refl _
      _ < 2 ^ 64 * 2 ^ 16 := Nat.mul_lt_mul'' ha hb
    have h2 : (2 : Nat) ^ 64 * 2 ^ 16 < 2 ^ 128 := by norm_num
    omega
  refine ⟨rfl, ?_, ?_, ?_⟩
  · intro hbz
    unfold split_relayer_fee
    rw [if_neg hbz, if_neg (not_le.mpr hml)]
    refine ⟨?_, ?_, ?_⟩
    · intro hlt
      rw [if_neg (not_le.mpr (lt_trans hlt ha)), if_pos hlt]
    · intro hge
      rw [if_pos hge]
    · intro hsm hnl
      rw [if_neg (not_le.mpr hsm), if_neg hnl]
  · intro v s aw s1 h
    obtain ⟨⟨_, _, _, _, _, parsed, hp, _, _, _, _, _, ⟨net, hsp⟩, _⟩, _⟩ :=
      withdrawOp_ok_elim v s aw s1 h
    exact ⟨parsed, net, hp, hsp⟩
  · intro v s ae s1 h
    obtain ⟨⟨_, _, _, _, _, parsed, hp, _, _, _, _, _, ⟨net, hsp⟩, _⟩, _⟩ :=
      externalTransferOp_ok_elim v s ae s1 h
    exact ⟨parsed, net, hp, hsp⟩

/-- Witness for C5: amount 10000 at 25 basis points gives fee 25 and net
9975; rate 0 gives fee 0 and net equal to the amount. -/
theorem c5_witness :
    split_relayer_fee 10000 25 = .ok (9975, 25) ∧
    split_relayer_fee 10000 0 = .ok (10000, 0) := by
  have h := c5_split_relayer_fee_spec 10000 25 (by decide) (by decide)
  have h2 := (h.2.1 (by decide)).1 (by norm_num)
  norm_num at h2
  exact ⟨h2, h.1⟩

/-- C6: each value-moving handler is all-or-nothing: under the host's
transactional semantics (committed) any error leaves the committed ledger
state exactly the pre-state, and a success implies every validation check
of the handler (pause, fee cap, allow-lists, authority, proof, decode,
cross-checks, fee equality, nullifier marking) held on the pre-state. -/
theorem c6_all_or_nothing (v : List Nat → List Nat → Bool) (s : PoolState)
    (aw : WithdrawArgs) (ai : InternalTransferArgs) (ae : ExternalTransferArgs) :
    (∀ e, withdrawOp v s aw = .error e →
      committed s (withdrawOp v s aw) = s) ∧
    (∀ s1, withdrawOp v s aw = .ok s1 → withdraw_checks v s aw) ∧
    (∀ e, internalTransferOp v s ai = .error e →
      committed s (internalTransferOp v s ai) = s) ∧
    (∀ s1, internalTransferOp v s ai = .ok s1 → internal_checks v s ai) ∧
    (∀ e, externalTransferOp v s ae = .error e →
      committed s (externalTransferOp v s ae) = s) ∧
    (∀ s1, externalTransferOp v s ae = .ok s1 → external_checks v s ae) := by
  refine ⟨?_, ?_, ?_, ?_, ?_, ?_⟩
  · intro e he; rw [he]; rfl
  · intro s1 h1; exact (withdrawOp_ok_elim v s aw s1 h1).1
  · intro e he; rw [he]; rfl
  · intro s1 h1; exact (internalTransferOp_ok_elim v s ai s1 h1).1
  · intro e he; rw [he]; rfl
  · intro s1 h1; exact (externalTransferOp_ok_elim v s ae s1 h1).1

/-- Witness for C6: a paused pool rejects a withdraw and the committed
state is unchanged. -/
theorem c6_witness :
    committed pausedState (withdrawOp verifyAlways pausedState wArgs) =
      pausedState :=
  (c6_all_or_nothing verifyAlways pausedState wArgs
    { proof := [], public_inputs := [], new_root := [] }
    { amount := 0, proof := [], public_inputs := [], relayer_fee_bps := 0,
      new_root := [] }).1 .ProtocolPaused rfl

/-- Counterexample to C10 as stated: a successful deposit into a vault
whose nonce is already the u64 maximum leaves the nonce unchanged instead
of incrementing it by exactly 1 (saturating addition). -/
theorem c10_counterexample :
    depositOp maxNonceState dArgs = .ok maxNonceAfter ∧
    maxNonceAfter.vault.nonce = maxNonceState.vault.nonce ∧
    maxNonceState.vault.nonce + 1 ≠ maxNonceAfter.vault.nonce :=
  ⟨rfl, rfl, by decide⟩

/-- C10 (amended): a successful withdraw or external transfer leaves
total_deposited unchanged and a successful deposit leaves total_withdrawn
unchanged; each of the three advances the nonce with u64 saturating
addition by one (so by exactly 1 whenever the nonce is below the u64
maximum). -/
theorem c10_vault_frame (v : List Nat → List Nat → Bool) (s : PoolState)
    (aw : WithdrawArgs) (ae : ExternalTransferArgs) (ad : DepositArgs) :
    (∀ s1, withdrawOp v s aw = .ok s1 →
      s1.vault.total_deposited = s.vault.total_deposited ∧
      s1.vault.nonce = satAdd64 s.vault.nonce 1) ∧
    (∀ s1, externalTransferOp v s ae = .ok s1 →
      s1.vault.total_deposited = s.vault.total_deposited ∧
      s1.vault.nonce = satAdd64 s.vault.nonce 1) ∧
    (∀ s1, depositOp s ad = .ok s1 →
      s1.vault.total_withdrawn = s.vault.total_withdrawn ∧
      s1.vault.nonce = satAdd64 s.vault.nonce 1) := by
  refine ⟨?_, ?_, ?_⟩
  · intro s1 h1
    have h := withdrawOp_ok_elim v s aw s1 h1
    exact ⟨h.2.1, h.2.2.2.1⟩
  · intro s1 h1
    have h := externalTransferOp_ok_elim v s ae s1 h1
    exact ⟨h.2.1, h.2.2.2.1⟩
  · intro s1 h1
    have h := depositOp_ok_elim s ad s1 h1
    exact ⟨h.2.2.2.1, h.2.2.2.2.2.1⟩

/-- Witness for C10: concrete successful withdraw, external transfer and
deposit from baseState. -/
theorem c10_witness :
    (baseStateAfterW.vault.total_deposited = baseState.vault.total_deposited ∧
      baseStateAfterW.vault.nonce = satAdd64 baseState.vault.nonce 1) ∧
    (maxNonceAfter.vault.total_withdrawn = maxNonceState.vault.total_withdrawn ∧
      maxNonceAfter.vault.nonce = satAdd64 maxNonceState.vault.nonce 1) :=
  ⟨(c10_vault_frame verifyAlways baseState wArgs eArgs dArgs).1
      baseStateAfterW rfl,
   (c10_vault_frame verifyAlways maxNonceState wArgs eArgs dArgs).2.2
      maxNonceAfter rfl⟩

lemma parse_u64_cases (c : List Nat) :
    (bad_high_bytes c 24 → parse_u64 c = .error .InvalidPublicInputs) ∧
    (¬ bad_high_bytes c 24 → parse_u64 c = .ok (beBytesToNat (c.drop 24))) := by
  have hex : (c.take 24).any (fun b => b != 0) = true ↔ bad_high_bytes c 24 := by
    simp [bad_high_bytes]
  unfold parse_u64
  by_cases hc : (c.take 24).any (fun b => b != 0) = true
  · exact ⟨fun _ => by rw [if_pos hc], fun hn => absurd (hex.mp hc) hn⟩
  · have hcf : (c.take 24).any (fun b => b != 0) = false :=
      bool_eq_false_of_not_true hc
    exact ⟨fun hb => absurd (hex.mpr hb) hc, fun _ => by rw [hcf]; rfl⟩

lemma parse_u32_cases (c : List Nat) :
    (bad_high_bytes c 28 → parse_u32 c = .error .InvalidPublicInputs) ∧
    (¬ bad_high_bytes c 28 → parse_u32 c = .ok (beBytesToNat (c.drop 28))) := by
  have hex : (c.take 28).any (fun b => b != 0) = true ↔ bad_high_bytes c 28 := by
    simp [bad_high_bytes]
  unfold parse_u32
  by_cases hc : (c.take 28).any (fun b => b != 0) = true
  · exact ⟨fun _ => by rw [if_pos hc], fun hn => absurd (hex.mp hc) hn⟩
  · have hcf : (c.take 28).any (fun b => b != 0) = false :=
      bool_eq_false_of_not_true hc
    exact ⟨fun hb => absurd (hex.mpr hb) hc, fun _ => by rw [hcf]; rfl⟩

lemma parse_u8_cases (c : List Nat) :
    (bad_flag_slot c → parse_u8 c = .error .InvalidPublicInputs) ∧
    (¬ bad_flag_slot c → parse_u8 c = .ok (beBytesToNat (c.drop 24))) := by
  unfold parse_u8
  by_cases hb : bad_high_bytes c 24
  · simp only [(parse_u64_cases c).1 hb]
    exact ⟨fun _ => trivial, fun hn => absurd (Or.inl hb) hn⟩
  · simp only [(parse_u64_cases c).2 hb]
    by_cases hv : 1 < beBytesToNat (c.drop 24)
    · refine ⟨fun _ => ?_, fun hn => absurd (Or.inr hv) hn⟩
      rw [if_neg (by omega)]
    · refine ⟨fun hbad => ?_, fun _ => by rw [if_pos (by omega)]⟩
      rcases hbad with h | h
      · exact absurd h hb
      · exact absurd h hv

lemma chunks32_getD_slot (bytes : List Nat) (hlen : bytes.length = 416)
    (i : Nat) (hi : i < 13) :
    (chunks32 bytes).getD i [] = slot32 bytes i := by
  have hch : chunks32 bytes = (List.range 13).map (slot32 bytes) := by
    rw [chunks32_eq 13 bytes (by rw [hlen])]
    rfl
  rw [hch, List.getD_eq_getElem?_getD, List.getElem?_map, List.getElem?_range hi]
  rfl

/-- C7: the public-input decoder rejects, with InvalidPublicInputs, any
well-sized input whose integral slots carry a nonzero byte outside the
designated low-order range (8 bytes for amount_out and fee_amount, 4 bytes
for circuit_id, the flag slots additionally bounded by one), and otherwise
decodes every field, reading the integral fields big-endian from the
low-order bytes of their slots. -/
theorem c7_public_input_decode (bytes : List Nat) (hlen : bytes.length = 416) :
    (bad_public_inputs bytes →
      parse_public_inputs bytes = .error .InvalidPublicInputs) ∧
    (¬ bad_public_inputs bytes →
      parse_public_inputs bytes = .ok
        { root := slot32 bytes 0,
          identity_root := slot32 bytes 1,
          nullifiers := [slot32 bytes 2, slot32 bytes 3, slot32 bytes 4,
                         slot32 bytes 5],
          output_commitments := [slot32 bytes 6, slot32 bytes 7],
          output_enabled := [beBytesToNat ((slot32 bytes 8).drop 24),
                             beBytesToNat ((slot32 bytes 9).drop 24)],
          amount_out := beBytesToNat ((slot32 bytes 10).drop 24),
          fee_amount := beBytesToNat ((slot32 bytes 11).drop 24),
          circuit_id := beBytesToNat ((slot32 bytes 12).drop 28) }) := by
  have hlen2 : bytes.length = PUBLIC_INPUTS_LEN * 32 := by rw [hlen]; rfl
  by_cases b8 : bad_flag_slot (slot32 bytes 8)
  · have herr : parse_public_inputs bytes = .error .InvalidPublicInputs := by
      unfold parse_public_inputs
      rw [if_pos hlen2]
      simp only [chunks32_getD_slot bytes hlen 8 (by omega),
        (parse_u8_cases (slot32 bytes 8)).1 b8]
    exact ⟨fun _ => herr, fun hn => absurd (Or.inl b8) hn⟩
  by_cases b9 : bad_flag_slot (slot32 bytes 9)
  · have herr : parse_public_inputs bytes = .error .InvalidPublicInputs := by
      unfold parse_public_inputs
      rw [if_pos hlen2]
      simp only [chunks32_getD_slot bytes hlen 8 (by omega),
        chunks32_getD_slot bytes hlen 9 (by omega),
        (parse_u8_cases (slot32 bytes 8)).2 b8,
        (parse_u8_cases (slot32 bytes 9)).1 b9]
    exact ⟨fun _ => herr, fun hn => absurd (Or.inr (Or.inl b9)) hn⟩
  by_cases b10 : bad_high_bytes (slot32 bytes 10) 24
  · have herr : parse_public_inputs bytes = .error .InvalidPublicInputs := by
      unfold parse_public_inputs
      rw [if_pos hlen2]
      simp only [chunks32_getD_slot bytes hlen 8 (by omega),
        chunks32_getD_slot bytes hlen 9 (by omega),
        chunks32_getD_slot bytes hlen 10 (by omega),
        (parse_u8_cases (slot32 bytes 8)).2 b8,
        (parse_u8_cases (slot32 bytes 9)).2 b9,
        (parse_u64_cases (slot32 bytes 10)).1 b10]
    exact ⟨fun _ => herr, fun hn => absurd (Or.inr (Or.inr (Or.inl b10))) hn⟩
  by_cases b11 : bad_high_bytes (slot32 bytes 11) 24
  · have herr : parse_public_inputs bytes = .error .InvalidPublicInputs := by
      unfold parse_public_inputs
      rw [if_pos hlen2]
      simp only [chunks32_getD_slot bytes hlen 8 (by omega),
        chunks32_getD_slot bytes hlen 9 (by omega),
        chunks32_getD_slot bytes hlen 10 (by omega),
        chunks32_getD_slot bytes hlen 11 (by omega),
        (parse_u8_cases (slot32 bytes 8)).2 b8,
        (parse_u8_cases (slot32 bytes 9)).2 b9,
        (parse_u64_cases (slot32 bytes 10)).2 b10,
        (parse_u64_cases (slot32 bytes 11)).1 b11]
    exact ⟨fun _ => herr,
      fun hn => absurd (Or.inr (Or.inr (Or.inr (Or.inl b11)))) hn⟩
  by_cases b12 : bad_high_bytes (slot32 bytes 12) 28
  · have herr : parse_public_inputs bytes = .error .InvalidPublicInputs := by
      unfold parse_public_inputs
      rw [if_pos hlen2]
      simp only [chunks32_getD_slot bytes hlen 8 (by omega),
        chunks32_getD_slot bytes hlen 9 (by omega),
        chunks32_getD_slot bytes hlen 10 (by omega),
        chunks32_getD_slot bytes hlen 11 (by omega),
        chunks32_getD_slot bytes hlen 12 (by omega),
        (parse_u8_cases (slot32 bytes 8)).2 b8,
        (parse_u8_cases (slot32 bytes 9)).2 b9,
        (parse_u64_cases (slot32 bytes 10)).2 b10,
        (parse_u64_cases (slot32 bytes 11)).2 b11,
        (parse_u32_cases (slot32 bytes 12)).1 b12]
    exact ⟨fun _ => herr,
      fun hn => absurd (Or.inr (Or.inr (Or.inr (Or.inr b12)))) hn⟩
  have hok : parse_public_inputs bytes = .ok
      { root := slot32 bytes 0,
        identity_root := slot32 bytes 1,
        nullifiers := [slot32 bytes 2, slot32 bytes 3, slot32 bytes 4,
                       slot32 bytes 5],
        output_commitments := [slot32 bytes 6, slot32 bytes 7],
        output_enabled := [beBytesToNat ((slot32 bytes 8).drop 24),
                           beBytesToNat ((slot32 bytes 9).drop 24)],
        amount_out := beBytesToNat ((slot32 bytes 10).drop 24),
        fee_amount := beBytesToNat ((slot32 bytes 11).drop 24),
        circuit_id := beBytesToNat ((slot32 bytes 12).drop 28) } := by
    unfold parse_public_inputs
    rw [if_pos hlen2]
    simp only [chunks32_getD_slot bytes hlen 0 (by omega),
      chunks32_getD_slot bytes hlen 1 (by omega),
      chunks32_getD_slot bytes hlen 2 (by omega),
      chunks32_getD_slot bytes hlen 3 (by omega),
      chunks32_getD_slot bytes hlen 4 (by omega),
      chunks32_getD_slot bytes hlen 5 (by omega),
      chunks32_getD_slot bytes hlen 6 (by omega),
      chunks32_getD_slot bytes hlen 7 (by omega),
      chunks32_getD_slot bytes hlen 8 (by omega),
      chunks32_getD_slot bytes hlen 9 (by omega),
      chunks32_getD_slot bytes hlen 10 (by omega),
      chunks32_getD_slot bytes hlen 11 (by omega),
      chunks32_getD_slot bytes hlen 12 (by omega),
      (parse_u8_cases (slot32 bytes 8)).2 b8,
      (parse_u8_cases (slot32 bytes 9)).2 b9,
      (parse_u64_cases (slot32 bytes 10)).2 b10,
      (parse_u64_cases (slot32 bytes 11)).2 b11,
      (parse_u32_cases (slot32 bytes 12)).2 b12]
  refine ⟨fun hbad => ?_, fun _ => hok⟩
  rcases hbad with h | h | h | h | h
  · exact absurd h b8
  · exact absurd h b9
  · exact absurd h b10
  · exact absurd h b11
  · exact absurd h b12

/-- Witness for C7: byte 5 of the circuit-id slot set to 1 is rejected. -/
theorem c7_witness :
    parse_public_inputs badCircuitBytes = .error .InvalidPublicInputs ∧
    badCircuitBytes.length = 416 :=
  ⟨(c7_public_input_decode badCircuitBytes (by decide)).1
      (Or.inr (Or.inr (Or.inr (Or.inr (by unfold bad_high_bytes; decide))))),
    by decide⟩

/-- C1 (code bug): a successful withdraw whose only nonzero nullifier
addresses chunk 5 while the primary entry covers chunk 0 resolves the
nullifier to the supplied writable chunk-5 remaining account, yet leaves
every nullifier entry unchanged: the source marks a freshly deserialized
copy of the remaining account and drops it without writing it back, so the
bit stays clear and replaying the identical call succeeds again instead of
failing with NullifierAlreadyUsed. -/
theorem c1_remaining_mark_not_persisted :
    withdrawOp verifyAlways baseState wArgs = .ok baseStateAfterW ∧
    is_zero_32 (slot32 pubInputs416 2) = false ∧
    (nullifier_position (slot32 pubInputs416 2)).1 = 5 ∧
    baseState.nullifier_set.chunk_index = 0 ∧
    find_remaining_chunk baseState.remaining 5 = some chunk5Set ∧
    Nat.testBit (chunk5Set.bitset.getD 0 0) 0 = false ∧
    baseStateAfterW.remaining = baseState.remaining ∧
    baseStateAfterW.nullifier_set = baseState.nullifier_set ∧
    withdrawOp verifyAlways baseStateAfterW wArgs = .ok baseStateAfterW2 :=
  ⟨rfl, rfl, rfl, rfl, rfl, by decide, rfl, rfl, rfl⟩

end Veilpay
